import Mathlib

/-!
Verification development for the tool-orchestration core of a personal-assistant
client.  The definitions below are a shallow embedding of the TypeScript source:

* `src/services/mcp-client.ts` — the remote-tool protocol client (auth store,
  token refresh, MCP JSON-RPC path, stateless REST fallback, tool aggregation);
* the core agent module (skill detection, tool declaration building, and the
  bounded agentic loop of `chat`).

All network traffic is modelled by explicit scripts carried in a `World` state:
each outbound HTTP operation consumes the head of the corresponding script and
appends a tag to `netLog`.  JavaScript exceptions are modelled with `Except`;
a function that the source wraps in `try/catch` is total here, with the catch
branch made explicit.  Timestamps are a fixed `now` (one turn is instantaneous).
-/

-- =============================================================================
-- String helpers (executable stand-ins for the JS string operations used by the
-- source; JS `toLowerCase`, `includes`, `startsWith`, `endsWith`, trailing-
-- pattern `replace` calls are modelled over `List Char`)
-- =============================================================================

/-- Lower-case every character (JS `toLowerCase` on the code points used here). -/
def lowerList (cs : List Char) : List Char := cs.map Char.toLower

/-- Lower-case a string via its character list. -/
def strLower (s : String) : String := String.mk (lowerList s.toList)

/-- Executable substring test: does `needle` occur inside `hay`? -/
def listHasInfix (needle : List Char) : List Char → Bool
  | [] => needle.isEmpty
  | c :: t => needle.isPrefixOf (c :: t) || listHasInfix needle t

/-- JS `hay.includes(needle)`. -/
def strContains (hay needle : String) : Bool := listHasInfix needle.toList hay.toList

/-- JS `s.startsWith(t)`. -/
def strStartsWith (s t : String) : Bool := t.toList.isPrefixOf s.toList

/-- JS `s.endsWith(t)`. -/
def strEndsWith (s t : String) : Bool := t.toList.reverse.isPrefixOf s.toList.reverse

/-- Drop the last `n` characters. -/
def strDropRight (s : String) (n : Nat) : String :=
  String.mk (s.toList.take (s.toList.length - n))

/-- Drop the first `n` characters. -/
def strDropLeft (s : String) (n : Nat) : String := String.mk (s.toList.drop n)

/-- JS `s.replace(/t$/, "")`: remove one occurrence of suffix `t`. -/
def dropOneSuffix (s t : String) : String :=
  if strEndsWith s t then strDropRight s t.length else s

/-- Whitespace test for `strTrim`. -/
def isWsChar (c : Char) : Bool := c = ' ' || c = '\t' || c = '\n' || c = '\r'

/-- JS `s.trim()`. -/
def strTrim (s : String) : String :=
  String.mk (((s.toList.dropWhile isWsChar).reverse.dropWhile isWsChar).reverse)

theorem listHasInfix_iff (needle hay : List Char) :
    listHasInfix needle hay = true ↔ needle <:+: hay := by
  induction hay with
  | nil =>
    simp [listHasInfix, List.isEmpty_iff, List.infix_nil]
  | cons c t ih =>
    simp [listHasInfix, List.infix_cons_iff, List.isPrefixOf_iff_prefix, ih]

-- =============================================================================
-- Skill detection (core agent, `detectRelevantSkills`)
-- =============================================================================

/-- A persona skill entry (`SkillDefinition` in the soul document). -/
structure SoulSkill where
  id : String
  name : String
  description : String
  category : String
  triggers : List String
  enabled : Bool
deriving DecidableEq, Repr

/-- The slice of the agent soul that skill detection reads (the full soul also
carries identity/prompt fields that skill detection never touches). -/
structure AgentSoul where
  skills : List SoulSkill
deriving DecidableEq, Repr

/-- Embeds `detectRelevantSkills(message, soul)`: for each enabled skill, push
its id on the first trigger that occurs (case-insensitively) in the message,
then move on — i.e. a skill contributes its id once, in table order. -/
def detectRelevantSkills (message : String) (soul : AgentSoul) : List String :=
  let messageLower := strLower message
  (soul.skills.filter fun sk =>
      sk.enabled && sk.triggers.any fun trig => strContains messageLower (strLower trig)).map
    (fun sk => sk.id)

-- =============================================================================
-- MCP client: data model (src/services/mcp-client.ts)
-- =============================================================================

/-- Property entry of a tool's `inputSchema.properties`. -/
structure MCPPropSchema where
  type : String
  description : Option String := none
deriving DecidableEq, Repr

/-- `inputSchema` of an MCP tool descriptor. -/
structure MCPInputSchema where
  type : String := "object"
  properties : List (String × MCPPropSchema) := []
  required : Option (List String) := none
deriving DecidableEq, Repr

/-- An MCP tool descriptor (`MCPTool` in the source). -/
structure MCPTool where
  name : String
  description : String := ""
  inputSchema : MCPInputSchema := {}
deriving DecidableEq, Repr

/-- One item of a tool result's `content` list; `text` is absent for non-text items. -/
structure ContentItem where
  type : String
  text : Option String := none
deriving DecidableEq, Repr

/-- Normalized tool invocation result (`MCPToolResult`); a missing `isError`
field on the wire behaves exactly like `false`, so it is a plain `Bool` here. -/
structure MCPToolResult where
  content : List ContentItem
  isError : Bool := false
deriving DecidableEq, Repr

/-- Does the result carry at least one human-readable text content item? -/
def MCPToolResult.hasTextItem (r : MCPToolResult) : Bool :=
  r.content.any fun c => c.text.isSome

/-- The aggregated session produced by `initializeMCPConnection`. -/
structure MCPSession where
  sessionId : String
  connected : Bool
  tools : List MCPTool
  toolToServer : List (String × String)
deriving DecidableEq, Repr

/-- Auth events delivered to the UI layer (`AuthEventType`). -/
inductive AuthEvent
  | needs_relogin
  | token_refreshed
  | token_cleared
deriving DecidableEq, Repr

/-- Tags recording each outbound HTTP operation, in order. -/
inductive NetCall
  | refreshPost
  | restPost (url : String)
  | restRetry (url : String)
  | mcpPost (url : String)
  | discGet (url : String)
deriving DecidableEq, Repr

/-- Scripted outcome of the POST to `/auth/refresh` inside `refreshGoogleToken`. -/
inductive RefreshOutcome
  | netError (msg : String)
  | httpError (status : Nat)
  | badJson
  | ok (accessToken : Option String) (expiresIn : Option Nat)
deriving DecidableEq, Repr

/-- A failed refresh episode: every constructor except a 2xx response whose body
carries an `access_token`. -/
def RefreshOutcome.fails : RefreshOutcome → Prop
  | .ok (some _) _ => False
  | _ => True

/-- Result value inside a JSON-RPC envelope or a REST `result` field, by shape:
the shapes the client inspects (`tools` list, bare string, `content` object), or
anything else, carried as its JSON rendering. -/
inductive McpResultVal
  | toolsList (tools : List MCPTool)
  | str (s : String)
  | contentRes (items : List ContentItem) (isError : Bool)
  | other (blob : String)
deriving DecidableEq, Repr

/-- A parsed JSON-RPC envelope (`{ result?, error? }`). -/
structure McpEnvelope where
  error : Option String := none
  result : Option McpResultVal := none
deriving DecidableEq, Repr

/-- Body framing of an MCP-protocol HTTP response: event-stream data lines
(`none` marks a line that is not valid JSON) or a plain JSON body (`none`
marks a body that `res.json()` rejects). -/
inductive McpBody
  | sse (lines : List (Option McpEnvelope))
  | plainJson (envelope : Option McpEnvelope)
deriving DecidableEq, Repr

/-- Scripted outcome of one MCP-protocol POST (`mcpRpc`'s `fetch`). -/
inductive McpOutcome
  | netError (msg : String)
  | resp (status : Nat) (sessionId : Option String) (body : McpBody)
deriving DecidableEq, Repr

/-- Parsed JSON body of a stateless REST call response: `invalid` when the body
text is not JSON, otherwise the `error` and `result` fields. -/
inductive RestBody
  | invalid
  | json (error : Option String) (result : Option McpResultVal)
deriving DecidableEq, Repr

/-- Scripted outcome of one REST POST in `callMCPTool`. -/
inductive RestOutcome
  | netError (msg : String)
  | resp (status : Nat) (body : RestBody)
deriving DecidableEq, Repr

/-- Body of a REST discovery GET (`/api/tools`, `/tools`): an object with a
`tools` array, a bare array, or an object without a usable `tools` field. -/
inductive DiscBody
  | toolsField (tools : List MCPTool)
  | bareArray (tools : List MCPTool)
  | noTools
deriving DecidableEq, Repr

/-- Scripted outcome of one REST discovery GET (`none` body: parse failure). -/
inductive DiscOutcome
  | netError (msg : String)
  | resp (status : Nat) (body : Option DiscBody)
deriving DecidableEq, Repr

/-- Endpoint configuration resolved from the environment at startup
(`MCP_GOOGLE_URL`, `MCP_TRAVEL_URL`, `SERPAPI_API_KEY`, `MCP_API_KEY`). -/
structure MCPConfig where
  googleUrl : String := ""
  travelUrl : String := ""
  serpKey : String := ""
  apiKey : String := ""
deriving DecidableEq, Repr

/-- The module-level mutable state of `mcp-client.ts` plus the scripted network
and an append-only log.  `persisted*` model the secure store; `g401Refresh` and
`g401Retry` are ghost counters bumped only at the 401-handling branch of
`callMCPTool`'s REST loop (they never influence control flow). -/
structure World where
  now : Nat := 0
  accessToken : Option String := none
  refreshToken : Option String := none
  tokenExpiry : Nat := 0
  authInitialized : Bool := true
  persistedAccess : Option String := none
  persistedRefresh : Option String := none
  persistedExpiry : Option Nat := none
  events : List AuthEvent := []
  sessions : List (String × String) := []
  serverProtocol : List (String × String) := []
  toolToServer : List (String × String) := []
  currentSession : Option MCPSession := none
  refreshScript : List RefreshOutcome := []
  restScript : List RestOutcome := []
  mcpScript : List McpOutcome := []
  discScript : List DiscOutcome := []
  netLog : List NetCall := []
  g401Refresh : Nat := 0
  g401Retry : Nat := 0
deriving DecidableEq, Repr

/-- Lookup in a string-keyed record (JS object used as a map). -/
def mapGet (m : List (String × String)) (k : String) : Option String :=
  (m.find? fun p => p.1 == k).map fun p => p.2

/-- Overwriting update of a string-keyed record. -/
def mapSet (m : List (String × String)) (k v : String) : List (String × String) :=
  (k, v) :: m.filter fun p => !(p.1 == k)

/-- Append an auth event to the log (`emitAuthEvent`). -/
def emitAuthEvent (w : World) (e : AuthEvent) : World :=
  { w with events := w.events ++ [e] }

/-- Embeds `clearMCPGoogleToken`: wipe the in-memory and persisted OAuth state
and emit `token_cleared`. -/
def clearMCPGoogleToken (w : World) : World :=
  let w := { w with
    accessToken := none, refreshToken := none, tokenExpiry := 0,
    persistedAccess := none, persistedRefresh := none, persistedExpiry := none }
  emitAuthEvent w .token_cleared

/-- Embeds `setMCPGoogleToken`: cache the token with `expiry = now + expiresIn
seconds`, keep the old refresh token when none is supplied, and mirror to the
secure store. -/
def setMCPGoogleToken (w : World) (accessToken : String) (expiresIn : Nat)
    (refreshToken : Option String) : World :=
  let expiry := w.now + expiresIn * 1000
  { w with
    accessToken := some accessToken
    tokenExpiry := expiry
    refreshToken := match refreshToken with | some r => some r | none => w.refreshToken
    persistedAccess := some accessToken
    persistedExpiry := some expiry
    persistedRefresh := match refreshToken with | some r => some r | none => w.persistedRefresh }

/-- Embeds `loadPersistedAuth`: on first use, trust persisted credentials only
when unexpired, clearing them otherwise. -/
def loadPersistedAuth (w : World) : World :=
  if w.authInitialized then w
  else
    let w' :=
      match w.persistedAccess, w.persistedExpiry with
      | some tok, some exp =>
        if w.now < exp then
          { w with accessToken := some tok, refreshToken := w.persistedRefresh,
                   tokenExpiry := exp }
        else clearMCPGoogleToken w
      | _, _ => w
    { w' with authInitialized := true }

/-- Server base for `/auth/refresh`: `MCP_SERVER_URL` with a trailing `/mcp`
(or `/mcp/`) and trailing slash removed, or `""` when unconfigured. -/
def mcpServerBase (cfg : MCPConfig) : String :=
  if cfg.googleUrl ≠ "" then
    let s := cfg.googleUrl
    let s := if strEndsWith s "/mcp/" then strDropRight s 5
             else if strEndsWith s "/mcp" then strDropRight s 4 else s
    dropOneSuffix s "/"
  else ""

/-- Pop the scripted `/auth/refresh` response, logging the POST; an exhausted
script behaves like a network error. -/
def popRefresh (w : World) : RefreshOutcome × World :=
  let w := { w with netLog := w.netLog ++ [NetCall.refreshPost] }
  match w.refreshScript with
  | [] => (RefreshOutcome.netError "no scripted response", w)
  | o :: rest => (o, { w with refreshScript := rest })

/-- Embeds `refreshGoogleToken`: exchange the refresh token at the server's
`/auth/refresh`; on success store the new token (keeping the refresh token) and
emit `token_refreshed`; on every failure clear all OAuth state and emit
`needs_relogin` (except when there was nothing cached at all). -/
def refreshGoogleToken (cfg : MCPConfig) (w : World) : Bool × World :=
  match w.refreshToken with
  | none =>
    if w.accessToken.isSome then
      let w := clearMCPGoogleToken w
      (false, emitAuthEvent w .needs_relogin)
    else (false, w)
  | some _ =>
    if mcpServerBase cfg = "" then
      let w := clearMCPGoogleToken w
      (false, emitAuthEvent w .needs_relogin)
    else
      let (out, w) := popRefresh w
      match out with
      | .ok (some tok) expIn =>
        let keepRefresh := w.refreshToken
        let expiresIn := match expIn with | some e => if e == 0 then 3600 else e | none => 3600
        let w := setMCPGoogleToken w tok expiresIn keepRefresh
        (true, emitAuthEvent w .token_refreshed)
      | _ =>
        let w := clearMCPGoogleToken w
        (false, emitAuthEvent w .needs_relogin)

/-- The static-key route test of `getMCPAuthHeaders`: the URL is the configured
Travel endpoint (after trimming and stripping `/` and `/mcp`) and an API key is
configured. -/
def isTravelKeyRoute (cfg : MCPConfig) (mcpUrl : Option String) : Bool :=
  let apiKey := strTrim cfg.apiKey
  let travelRoot := dropOneSuffix (dropOneSuffix (strTrim cfg.travelUrl) "/") "/mcp"
  let mcpRoot := dropOneSuffix (dropOneSuffix (mcpUrl.getD "") "/") "/mcp"
  (mcpUrl.getD "" != "") && (travelRoot != "") && (mcpRoot == travelRoot) && (apiKey != "")

/-- Embeds `getMCPAuthHeaders`: static `X-API-Key` for the Travel endpoint;
otherwise, when an OAuth token is cached but expired, attempt one refresh, then
attach a bearer header only if a valid unexpired token remains.  Total — every
failure inside `refreshGoogleToken` is absorbed there. -/
def getMCPAuthHeaders (cfg : MCPConfig) (mcpUrl : Option String) (w : World) :
    List (String × String) × World :=
  let headers : List (String × String) := [("Content-Type", "application/json")]
  if isTravelKeyRoute cfg mcpUrl then
    (headers ++ [("X-API-Key", strTrim cfg.apiKey)], w)
  else
    match w.accessToken with
    | none => (headers, w)
    | some _ =>
      let w := if w.tokenExpiry ≤ w.now then (refreshGoogleToken cfg w).2 else w
      match w.accessToken with
      | some tok =>
        if w.now < w.tokenExpiry then
          (headers ++ [("Authorization", "Bearer " ++ tok)], w)
        else (headers, w)
      | none => (headers, w)

-- =============================================================================
-- MCP client: JSON-RPC protocol path
-- =============================================================================

/-- Pop the scripted response of one MCP-protocol POST, logging it. -/
def popMcp (w : World) (url : String) : McpOutcome × World :=
  let w := { w with netLog := w.netLog ++ [NetCall.mcpPost url] }
  match w.mcpScript with
  | [] => (McpOutcome.netError "no scripted response", w)
  | o :: rest => (o, { w with mcpScript := rest })

/-- Embeds `parseMcpResponse`: event-stream bodies yield the first data line
that parses as a JSON-RPC envelope (failing when none does); plain bodies yield
their JSON or fail when the body is not JSON. -/
def parseMcpResponse (body : McpBody) : Except String McpEnvelope :=
  match body with
  | .sse lines =>
    match lines.filterMap id with
    | [] => .error "No valid JSON-RPC message in SSE stream"
    | env :: _ => .ok env
  | .plainJson none => .error "invalid JSON body"
  | .plainJson (some env) => .ok env

/-- Is an HTTP status a success (`res.ok`)? -/
def httpOk (status : Nat) : Bool := 200 ≤ status && status < 300

/-- Embeds `mcpRpc`: build auth headers, POST, capture a `Mcp-Session-Id`
response header, return `null` early for notifications, and fail on non-2xx
statuses, framing errors and JSON-RPC error envelopes. -/
def mcpRpc (cfg : MCPConfig) (mcpUrl method : String) (isNote : Bool) (w : World) :
    Except String (Option McpResultVal) × World :=
  let (_, w) := getMCPAuthHeaders cfg (some mcpUrl) w
  let (out, w) := popMcp w mcpUrl
  match out with
  | .netError m => (.error m, w)
  | .resp status sessionId body =>
    let w := match sessionId with
      | some sid => { w with sessions := mapSet w.sessions mcpUrl sid }
      | none => w
    if isNote then (.ok none, w)
    else if !httpOk status then
      (.error ("MCP RPC " ++ method ++ " failed (" ++ toString status ++ ")"), w)
    else
      match parseMcpResponse body with
      | .error m => (.error m, w)
      | .ok env =>
        match env.error with
        | some m => (.error ("MCP RPC " ++ method ++ " error: " ++ m), w)
        | none => (.ok env.result, w)

/-- Embeds `mcpInitialize`: the `initialize` handshake followed by the one-way
`notifications/initialized`. -/
def mcpInitialize (cfg : MCPConfig) (mcpUrl : String) (w : World) :
    Except String Unit × World :=
  match mcpRpc cfg mcpUrl "initialize" false w with
  | (.error e, w) => (.error e, w)
  | (.ok _, w) =>
    match mcpRpc cfg mcpUrl "notifications/initialized" true w with
    | (.error e, w) => (.error e, w)
    | (.ok _, w) => (.ok (), w)

/-- Embeds `mcpListTools`: handshake when no session is cached, then
`tools/list`, reading the `tools` field (empty when absent). -/
def mcpListTools (cfg : MCPConfig) (mcpUrl : String) (w : World) :
    Except String (List MCPTool) × World :=
  let step := fun (w : World) =>
    match mcpRpc cfg mcpUrl "tools/list" false w with
    | (.error e, w) => (Except.error e, w)
    | (.ok r, w) =>
      match r with
      | some (.toolsList ts) => (Except.ok ts, w)
      | _ => (Except.ok ([] : List MCPTool), w)
  match mapGet w.sessions mcpUrl with
  | some _ => step w
  | none =>
    match mcpInitialize cfg mcpUrl w with
    | (.error e, w) => (.error e, w)
    | (.ok _, w) => step w

/-- Rendering of a non-string, non-content result as a JSON blob
(`JSON.stringify(result, null, 2)`); the exact text is immaterial to every
claim, only that a text item is produced. -/
def stringifyResult : Option McpResultVal → String
  | some (.toolsList ts) => String.intercalate "," (ts.map fun t => t.name)
  | some (.str s) => s
  | some (.contentRes _ _) => "object"
  | some (.other blob) => blob
  | none => "undefined"

/-- Embeds `mcpCallTool`: handshake when no session is cached, send
`tools/call`, and normalize the result: a `content`-shaped result passes
through verbatim, a bare string becomes one text item, anything else is
stringified into one text item. -/
def mcpCallTool (cfg : MCPConfig) (mcpUrl toolName : String)
    (args : List (String × String)) (w : World) :
    Except String MCPToolResult × World :=
  let step := fun (w : World) =>
    match mcpRpc cfg mcpUrl "tools/call" false w with
    | (.error e, w) => (Except.error e, w)
    | (.ok r, w) =>
      match r with
      | some (.contentRes items isErr) =>
        (Except.ok ({ content := items, isError := isErr } : MCPToolResult), w)
      | some (.str s) =>
        (Except.ok ({ content := [{ type := "text", text := some s }] } : MCPToolResult), w)
      | other =>
        (Except.ok ({ content := [{ type := "text", text := some (stringifyResult other) }] } :
          MCPToolResult), w)
  match mapGet w.sessions mcpUrl with
  | some _ => step w
  | none =>
    match mcpInitialize cfg mcpUrl w with
    | (.error e, w) => (.error e, w)
    | (.ok _, w) => step w

-- =============================================================================
-- MCP client: tool aliases and URL helpers
-- =============================================================================

/-- The static alias table (`MINIMAL_TOOL_ALIASES`). -/
def MINIMAL_TOOL_ALIASES : List (String × String) :=
  [("gmail_read_message", "gmail_read_email"),
   ("gmail_list_messages", "gmail_list_emails"),
   ("gmail_search_messages", "gmail_list_emails"),
   ("contacts_search_contacts", "contacts_search"),
   ("contacts_list_contacts", "contacts_list"),
   ("drive_search", "drive_search_files")]

/-- Embeds `normalizeToolName`: dots to underscores, strip a leading `google_`,
then alias substitution.  (The source's lookup of the normalized name in the
current session's catalog is dead code — both of its branches return the
normalized name — and is omitted.) -/
def normalizeToolName (toolName : String) : String :=
  let replaced := String.mk (toolName.toList.map fun c => if c == '.' then '_' else c)
  let normalized := if strStartsWith replaced "google_" then strDropLeft replaced 7 else replaced
  match mapGet MINIMAL_TOOL_ALIASES normalized with
  | some a => a
  | none => normalized

/-- Embeds `normalizeBaseUrl`: strip one trailing slash, append `/mcp` when
missing, and derive the server root. -/
def normalizeBaseUrl (url : String) : String × String :=
  let baseUrl := dropOneSuffix url "/"
  let baseUrl := if strEndsWith baseUrl "/mcp" then baseUrl else baseUrl ++ "/mcp"
  (baseUrl, dropOneSuffix baseUrl "/mcp")

/-- A configured server entry of `getMcpServerUrls`. -/
structure ServerEntry where
  baseUrl : String
  name : String
  rootUrl : Option String
deriving DecidableEq, Repr

/-- Embeds `getMcpServerUrls`: the Google Workspace endpoint when configured,
then the Travel endpoint (self-hosted, else the hosted SerpAPI MCP keyed by the
SerpAPI key — the key is assumed URL-safe, standing in for `encodeURIComponent`). -/
def getMcpServerUrls (cfg : MCPConfig) : List ServerEntry :=
  let googleList :=
    if strTrim cfg.googleUrl ≠ "" then
      let (baseUrl, rootUrl) := normalizeBaseUrl (strTrim cfg.googleUrl)
      [{ baseUrl := baseUrl, name := "google", rootUrl := some rootUrl }]
    else []
  let travelList :=
    if strTrim cfg.travelUrl ≠ "" then
      let (baseUrl, rootUrl) := normalizeBaseUrl (strTrim cfg.travelUrl)
      [{ baseUrl := baseUrl, name := "travel", rootUrl := some rootUrl }]
    else if strTrim cfg.serpKey ≠ "" then
      [{ baseUrl := "https://mcp.serpapi.com/" ++ strTrim cfg.serpKey ++ "/mcp",
         name := "travel", rootUrl := none }]
    else []
  googleList ++ travelList

-- =============================================================================
-- MCP client: discovery and aggregation
-- =============================================================================

/-- Pop the scripted response of one REST discovery GET, logging it. -/
def popDisc (w : World) (url : String) : DiscOutcome × World :=
  let w := { w with netLog := w.netLog ++ [NetCall.discGet url] }
  match w.discScript with
  | [] => (DiscOutcome.netError "no scripted response", w)
  | o :: rest => (o, { w with discScript := rest })

/-- The tools list a REST discovery body yields (`data.tools` if an array, else
`data` if an array, else `[]`). -/
def discBodyTools : DiscBody → List MCPTool
  | .toolsField ts => ts
  | .bareArray ts => ts
  | .noTools => []

/-- The REST discovery fallback loop of `fetchToolsFromServer`: GET each
`base ++ path` until one returns a non-empty tools list; every per-path failure
(network, non-2xx, bad JSON, empty list) is swallowed and the next candidate is
tried.  Returns the winning list, call base and protocol update, if any. -/
def restDiscoveryLoop : List String → World → Option (List MCPTool × String) × World
  | [], w => (none, w)
  | url :: rest, w =>
    let (out, w) := popDisc w url
    match out with
    | .netError _ => restDiscoveryLoop rest w
    | .resp status body =>
      if !httpOk status then restDiscoveryLoop rest w
      else
        match body with
        | none => restDiscoveryLoop rest w
        | some b =>
          let list := discBodyTools b
          if list.isEmpty then restDiscoveryLoop rest w
          else (some (list, url), w)

/-- The discovery GET candidates: each base crossed with `/api/tools`, `/tools`. -/
def discCandidates (bases : List String) : List String :=
  bases.flatMap fun base => [base ++ "/api/tools", base ++ "/tools"]

/-- The REST call base a discovery URL belongs to (strip the path suffix). -/
def discBaseOf (url : String) : String :=
  if strEndsWith url "/api/tools" then strDropRight url 10 else dropOneSuffix url "/tools"

/-- Embeds `fetchToolsFromServer`: try the MCP protocol first; when it throws
or yields zero tools and the server is not the Travel one, fall back to REST
discovery over `rootUrl` and the `/mcp`-stripped base; record the protocol that
won.  Total: every failure ends as zero tools. -/
def fetchToolsFromServer (cfg : MCPConfig) (baseUrl : String) (rootUrl : Option String)
    (serverName : String) (w : World) : (List MCPTool × String) × World :=
  let mcpAttempt := mcpListTools cfg baseUrl w
  let afterMcp : Option (List MCPTool × String) × World :=
    match mcpAttempt with
    | (.ok tools, w) =>
      if tools.length > 0 then
        (some (tools, baseUrl), { w with serverProtocol := mapSet w.serverProtocol baseUrl "mcp" })
      else (none, w)
    | (.error _, w) => (none, w)
  match afterMcp with
  | (some r, w) => (r, w)
  | (none, w) =>
    if serverName == "travel" then (([], baseUrl), w)
    else
      let (_, w) := getMCPAuthHeaders cfg (some baseUrl) w
      let baseForRest := dropOneSuffix baseUrl "/mcp"
      let bases := match rootUrl with
        | some r => [r, baseForRest]
        | none => [baseForRest]
      match restDiscoveryLoop (discCandidates bases) w with
      | (some (list, url), w) =>
        let base := discBaseOf url
        ((list, base), { w with serverProtocol := mapSet w.serverProtocol base "rest" })
      | (none, w) => (([], baseUrl), w)

/-- The shared aggregation fold: push every discovered tool into the flat
catalog and point the routing table entry for its name at the serving base. -/
def aggregateTools (acc : List MCPTool × List (String × String))
    (tools : List MCPTool) (baseUrlForCalls : String) :
    List MCPTool × List (String × String) :=
  tools.foldl (fun acc t => (acc.1 ++ [t], mapSet acc.2 t.name baseUrlForCalls)) acc

/-- The per-server discovery fold shared by `listMCPTools` and
`initializeMCPConnection` (their `try/catch` around `fetchToolsFromServer` is
vacuous: the fetch absorbs its own failures). -/
def discoverServers (cfg : MCPConfig) :
    List ServerEntry → (List MCPTool × List (String × String)) → World →
    (List MCPTool × List (String × String)) × World
  | [], acc, w => (acc, w)
  | s :: rest, acc, w =>
    let ((tools, base), w) := fetchToolsFromServer cfg s.baseUrl s.rootUrl s.name w
    discoverServers cfg rest (aggregateTools acc tools base) w

/-- Embeds `listMCPTools`: load persisted auth, reset the routing table, then
aggregate every configured server's tools, skipping failed servers. -/
def listMCPTools (cfg : MCPConfig) (w : World) : List MCPTool × World :=
  let w := loadPersistedAuth w
  let w := { w with toolToServer := [] }
  let ((allTools, toolToServer), w) := discoverServers cfg (getMcpServerUrls cfg) ([], []) w
  (allTools, { w with toolToServer := toolToServer })

/-- Embeds `initializeMCPConnection`: like `listMCPTools` but failing when no
server contributed any tool, and recording the aggregated session. -/
def initializeMCPConnection (cfg : MCPConfig) (w : World) :
    Except String MCPSession × World :=
  let w := loadPersistedAuth w
  let sessionId := "session-" ++ toString w.now
  let ((allTools, toolToServer), w) := discoverServers cfg (getMcpServerUrls cfg) ([], []) w
  if allTools.isEmpty then
    (.error "No MCP tools available from any server. Check server URLs and health.", w)
  else
    let session : MCPSession :=
      { sessionId := sessionId, connected := true, tools := allTools,
        toolToServer := toolToServer }
    (.ok session, { w with toolToServer := toolToServer, currentSession := some session })

-- =============================================================================
-- MCP client: tool invocation (`callMCPTool`)
-- =============================================================================

/-- Pop the scripted response of one REST POST, logging it under `tag`. -/
def popRest (w : World) (tag : NetCall) : RestOutcome × World :=
  let w := { w with netLog := w.netLog ++ [tag] }
  match w.restScript with
  | [] => (RestOutcome.netError "no scripted response", w)
  | o :: rest => (o, { w with restScript := rest })

/-- An error-tagged tool result carrying one explanatory text item. -/
def errorResult (msg : String) : MCPToolResult :=
  { content := [{ type := "text", text := some msg }], isError := true }

/-- A captured REST response (status plus parsed body). -/
structure RestResp where
  status : Nat
  body : RestBody
deriving DecidableEq, Repr

/-- The REST call loop of `callMCPTool`: POST each candidate URL until one
returns an HTTP success; a 401 with a refresh token on hand triggers one
refresh and, when that succeeds, one retried POST of the same URL; a 401
without a refresh token clears the OAuth state and signals re-login.  The last
response seen is kept.  A thrown `fetch` propagates as `Except.error`.  The
ghost counters `g401Refresh`/`g401Retry` are bumped exactly at the refresh and
retry of the 401 branch. -/
def restCallLoop (cfg : MCPConfig) :
    List String → Option RestResp → World → Except String (Option RestResp) × World
  | [], response, w => (.ok response, w)
  | url :: rest, _, w =>
    let (out, w) := popRest w (NetCall.restPost url)
    match out with
    | .netError m => (.error m, w)
    | .resp status body =>
      let response := some ({ status := status, body := body } : RestResp)
      if httpOk status then (.ok response, w)
      else if status == 401 then
        match w.refreshToken with
        | some _ =>
          let w := { w with g401Refresh := w.g401Refresh + 1 }
          let (refreshed, w) := refreshGoogleToken cfg w
          if refreshed then
            let (_, w) := getMCPAuthHeaders cfg none w
            let w := { w with g401Retry := w.g401Retry + 1 }
            let (out2, w) := popRest w (NetCall.restRetry url)
            match out2 with
            | .netError m => (.error m, w)
            | .resp st2 b2 =>
              let response := some ({ status := st2, body := b2 } : RestResp)
              if httpOk st2 then (.ok response, w)
              else restCallLoop cfg rest response w
          else restCallLoop cfg rest response w
        | none =>
          let w := clearMCPGoogleToken w
          let w := emitAuthEvent w .needs_relogin
          restCallLoop cfg rest response w
      else restCallLoop cfg rest response w

/-- The base URL `callMCPTool` resolves for a normalized tool name: the routing
table entry, else the configured primary server URL with a trailing slash
stripped, else empty. -/
def resolveToolBaseUrl (cfg : MCPConfig) (w : World) (normalized : String) : String :=
  let mapped := (mapGet w.toolToServer normalized).getD ""
  if mapped ≠ "" then mapped
  else if cfg.googleUrl ≠ "" then dropOneSuffix cfg.googleUrl "/" else ""

/-- The localhost guard of `callMCPTool`. -/
def localhostGuard (baseUrl : String) : Bool :=
  strContains baseUrl "localhost" || strStartsWith baseUrl "http://127.0.0.1"

/-- Interpretation of a REST call response (`callMCPTool` after its URL loop):
non-JSON bodies, non-2xx statuses and `error` fields become error-tagged
results; a string `result` becomes one text item; a `content`-shaped `result`
passes through; anything else is stringified. -/
def interpretRestResponse (normalized : String) (response : Option RestResp) : MCPToolResult :=
  match response with
  | none => errorResult ("Error: No call endpoint responded for " ++ normalized)
  | some resp =>
    match resp.body with
    | .invalid =>
      errorResult ("Error: Server returned " ++ toString resp.status ++ ". Not valid JSON.")
    | .json err result =>
      if !httpOk resp.status then
        errorResult ("Error: " ++ (err.getD ("HTTP " ++ toString resp.status)))
      else
        match err with
        | some e => errorResult ("Error: " ++ e)
        | none =>
          match result with
          | some (.str s) => { content := [{ type := "text", text := some s }] }
          | some (.contentRes items isErr) => { content := items, isError := isErr }
          | other => { content := [{ type := "text", text := some (stringifyResult other) }] }

/-- The body of `callMCPTool` (everything inside its `try`): resolve the owning
server, refuse empty or localhost URLs with error-tagged results, then dispatch
over the remembered protocol; `Except.error` stands for a thrown exception. -/
def callMCPToolBody (cfg : MCPConfig) (toolName : String) (args : List (String × String))
    (w : World) : Except String MCPToolResult × World :=
  let normalized := normalizeToolName toolName
  let baseUrl := resolveToolBaseUrl cfg w normalized
  if baseUrl = "" then
    (.ok (errorResult ("No MCP server configured for tool: " ++ normalized ++
      ". Set EXPO_PUBLIC_MCP_SERVER_URL or connect MCP.")), w)
  else if localhostGuard baseUrl then
    (.ok (errorResult ("MCP is pointing at localhost (" ++ baseUrl ++
      "). Set EXPO_PUBLIC_MCP_SERVER_URL to your deployed MCP URL.")), w)
  else if mapGet w.serverProtocol baseUrl == some "mcp" then
    mcpCallTool cfg baseUrl normalized args w
  else
    let restBase :=
      let r := if strEndsWith baseUrl "/mcp/" then strDropRight baseUrl 5
               else if strEndsWith baseUrl "/mcp" then strDropRight baseUrl 4 else baseUrl
      if r ≠ "" then r else baseUrl
    let (_, w) := getMCPAuthHeaders cfg (some baseUrl) w
    let callUrls := [restBase ++ "/api/call", restBase ++ "/call"]
    match restCallLoop cfg callUrls none w with
    | (.error e, w) => (.error e, w)
    | (.ok response, w) => (.ok (interpretRestResponse normalized response), w)

/-- Embeds `callMCPTool`: the body above wrapped in the source's `catch`, which
converts any thrown exception into an error-tagged result — the function never
throws to its caller. -/
def callMCPTool (cfg : MCPConfig) (toolName : String) (args : List (String × String))
    (w : World) : MCPToolResult × World :=
  match callMCPToolBody cfg toolName args w with
  | (.ok r, w) => (r, w)
  | (.error msg, w) => (errorResult ("Error calling " ++ toolName ++ ": " ++ msg), w)

-- =============================================================================
-- Core agent: tool declaration building
-- =============================================================================

/-- The slice of the module-level brain state that tool building reads. -/
structure BrainState where
  mcpConnected : Bool
  mcpTools : List MCPTool
deriving DecidableEq, Repr

/-- The fixed deny-list (`EXCLUDED_MCP_TOOLS`). -/
def EXCLUDED_MCP_TOOLS : List String := ["search", "get_cache_stats", "clear_cache"]

/-- A declared function parameter after the schema coercion. -/
structure FunctionDeclParam where
  type : String
  description : String
deriving DecidableEq, Repr

/-- A Gemini function declaration built from an MCP tool. -/
structure FunctionDecl where
  name : String
  description : String
  paramProperties : List (String × FunctionDeclParam)
  required : List String
deriving DecidableEq, Repr

/-- The per-tool mapping inside `buildMCPFunctionDeclarations`: property types
collapse to `number` or `string`, descriptions default to empty. -/
def toFunctionDecl (tool : MCPTool) : FunctionDecl :=
  { name := tool.name
    description := tool.description
    paramProperties := tool.inputSchema.properties.map fun kv =>
      (kv.1, { type := if kv.2.type == "number" then "number" else "string",
               description := kv.2.description.getD "" })
    required := tool.inputSchema.required.getD [] }

/-- Embeds `buildMCPFunctionDeclarations`: nothing when MCP is down or empty,
else every catalog tool not on the deny-list. -/
def buildMCPFunctionDeclarations (st : BrainState) : List FunctionDecl :=
  if !st.mcpConnected || st.mcpTools.isEmpty then []
  else (st.mcpTools.filter fun t => !(EXCLUDED_MCP_TOOLS.contains t.name)).map toFunctionDecl

/-- One entry of the `tools` array passed to `generateContent`. -/
inductive GeminiToolConfig
  | functionDeclarations (decls : List FunctionDecl)
  | googleSearch
deriving DecidableEq, Repr

/-- Embeds the `tools` assembly of `chat`: MCP function declarations when the
workspace or travel flag is set and any survive filtering; otherwise the
built-in `googleSearch` grounding when the search flag is set (the backend
cannot combine the two in one `generateContent` call). -/
def buildChatTools (st : BrainState) (useWorkspace useTravel useSearch : Bool) :
    List GeminiToolConfig :=
  let mcpFunctions := if useWorkspace || useTravel then buildMCPFunctionDeclarations st else []
  if mcpFunctions.length > 0 then [GeminiToolConfig.functionDeclarations mcpFunctions]
  else if useSearch then [GeminiToolConfig.googleSearch] else []

-- =============================================================================
-- Core agent: the agentic loop of `chat`
-- =============================================================================

/-- One part of a Gemini content message. -/
inductive GenPart
  | text (s : String) (thought : Bool)
  | functionCall (name : String) (args : List (String × String))
  | functionResponse (name : String) (result : String)
deriving DecidableEq, Repr

/-- A conversation message (`{ role, parts }`). -/
structure GenContent where
  role : String
  parts : List GenPart
deriving DecidableEq, Repr

/-- A model response: the first candidate's parts plus the SDK's aggregated
`.text` accessor (`none` when absent). -/
structure GenResponse where
  parts : List GenPart
  text : Option String := none
deriving DecidableEq, Repr

/-- A tool call record returned to the caller (`ToolCall` in the source). -/
structure ToolCallRecord where
  name : String
  args : List (String × String)
  result : String
  status : String
deriving DecidableEq, Repr

/-- The primary model id. -/
def MODEL : String := "gemini-3-flash-preview"

/-- The fallback model id. -/
def FALLBACK_MODEL : String := "gemini-2.5-flash"

/-- The loop ceiling (`MAX_TOOL_ITERATIONS`). -/
def MAX_TOOL_ITERATIONS : Nat := 8

/-- A scripted language-model backend: `generateContent` as a pure function of
the model id and conversation; `Except.error` is a thrown SDK error. -/
abbrev GenBackend := String → List GenContent → Except String GenResponse

/-- A tool dispatch backend standing for `callMCPTool`, which never throws
(its `catch` converts exceptions into error-tagged results), hence total. -/
abbrev ToolBackend := String → List (String × String) → MCPToolResult

/-- The inner two-attempt model call of each iteration: primary model first,
then one fallback-model attempt whose failure propagates. -/
def generateWithFallback (gen : GenBackend) (contents : List GenContent) :
    Except String GenResponse :=
  match gen MODEL contents with
  | .ok r => .ok r
  | .error _ => gen FALLBACK_MODEL contents

/-- Is this part a `functionCall`? -/
def GenPart.isFunctionCall : GenPart → Bool
  | .functionCall _ _ => true
  | _ => false

/-- The `functionCall` parts of a response (`parts.filter(p => p.functionCall)`). -/
def functionCallPartsOf (r : GenResponse) : List GenPart :=
  r.parts.filter GenPart.isFunctionCall

/-- The (name, args) pairs of a list of `functionCall` parts. -/
def dispatchedOf (fcps : List GenPart) : List (String × List (String × String)) :=
  fcps.filterMap fun p =>
    match p with
    | .functionCall n a => some (n, a)
    | _ => none

/-- The result text fed back to the model: text items joined by newlines,
non-text items stringified. -/
def renderResultText (result : MCPToolResult) : String :=
  String.intercalate "\n" (result.content.map fun c =>
    match c.text with
    | some t => t
    | none => "content-item:" ++ c.type)

/-- The record appended for one dispatched invocation: the rendered result text
and `status = "error"` exactly when the result is error-tagged. -/
def mkToolCallRecord (toolB : ToolBackend) (name : String)
    (args : List (String × String)) : ToolCallRecord :=
  let result := toolB name args
  { name := name, args := args, result := renderResultText result,
    status := if result.isError then "error" else "success" }

/-- The model-role message echoing the model's tool-call parts. -/
def modelTurnMessage (fcps : List GenPart) : GenContent :=
  { role := "model", parts := fcps }

/-- The user-role message carrying the synthesized tool results (each carrying
the same rendered text as the matching record — error text included). -/
def toolResponsesMessage (toolB : ToolBackend) (fcps : List GenPart) : GenContent :=
  { role := "user"
    parts := (dispatchedOf fcps).map fun na =>
      GenPart.functionResponse na.1 (renderResultText (toolB na.1 na.2)) }

/-- The fallback reply when the ceiling is reached with no final answer. -/
def exhaustedFallbackText : String :=
  "I wasn't able to complete that request. Could you try again?"

/-- `finalResponse?.text || fallback` (JS `||`: an empty string also falls back). -/
def textOrFallback : Option String → String
  | some s => if s = "" then exhaustedFallbackText else s
  | none => exhaustedFallbackText

/-- The outcome of one turn's agentic loop. -/
structure TurnResult where
  text : String
  toolCalls : List ToolCallRecord
  iterations : Nat
  dispatched : List (String × List (String × String))
  errored : Bool
  finalContents : List GenContent
deriving DecidableEq, Repr

/-- Embeds the `while (iteration < MAX_TOOL_ITERATIONS)` loop of `chat`, with
`fuel` the remaining iteration budget.  Each iteration: one model call with
fallback (a double failure returns the apologetic error turn, the catch
branch); a response with no `functionCall` parts finishes the turn; otherwise
every requested call is dispatched — appending exactly one record each — and
both the model's tool-call message and the synthesized results are added to the
conversation.  `dispatched` is the log of invocations actually dispatched. -/
def chatLoop (gen : GenBackend) (toolB : ToolBackend) :
    Nat → List GenContent → List ToolCallRecord →
    List (String × List (String × String)) → Nat → TurnResult
  | 0, contents, records, disp, iters =>
    { text := exhaustedFallbackText, toolCalls := records, iterations := iters,
      dispatched := disp, errored := false, finalContents := contents }
  | fuel + 1, contents, records, disp, iters =>
    match generateWithFallback gen contents with
    | .error e =>
      { text := "I encountered an error: " ++ e ++ ". Let me try a different approach."
        toolCalls := records, iterations := iters + 1, dispatched := disp,
        errored := true, finalContents := contents }
    | .ok resp =>
      let fcps := functionCallPartsOf resp
      if fcps.isEmpty then
        { text := textOrFallback resp.text, toolCalls := records, iterations := iters + 1,
          dispatched := disp, errored := false, finalContents := contents }
      else
        let calls := dispatchedOf fcps
        let newRecords := calls.map fun na => mkToolCallRecord toolB na.1 na.2
        chatLoop gen toolB fuel
          (contents ++ [modelTurnMessage fcps, toolResponsesMessage toolB fcps])
          (records ++ newRecords) (disp ++ calls) (iters + 1)

/-- The agentic loop of one `chat` turn: the turn assembly before the loop
(skills, memories, instructions) is abstracted as the initial conversation
`contents`; the loop starts with no records at iteration 0 and budget 8. -/
def chatAgenticLoop (gen : GenBackend) (toolB : ToolBackend)
    (contents : List GenContent) : TurnResult :=
  chatLoop gen toolB MAX_TOOL_ITERATIONS contents [] [] 0

-- =============================================================================
-- Claim C9: skill detection
-- =============================================================================

theorem strLower_toList (s : String) : (strLower s).toList = lowerList s.toList := rfl

/-- C9: `detectRelevantSkills` returns the id of an enabled skill iff one of
its triggers occurs case-insensitively as a substring of the message; a
disabled skill never fires; when the skill table's ids are distinct each firing
id appears exactly once; and the returned ids follow skill-table order (the
result is a sublist of the table's id column). -/
theorem detectRelevantSkills_spec (message : String) (soul : AgentSoul) :
    (∀ id, id ∈ detectRelevantSkills message soul ↔
      ∃ sk ∈ soul.skills, sk.id = id ∧ sk.enabled = true ∧
        ∃ trig ∈ sk.triggers, lowerList trig.toList <:+: lowerList message.toList)
    ∧ ((soul.skills.map SoulSkill.id).Nodup → (detectRelevantSkills message soul).Nodup)
    ∧ (detectRelevantSkills message soul).Sublist (soul.skills.map SoulSkill.id) := by
  refine ⟨fun id => ?_, fun hnd => ?_, ?_⟩
  · simp only [detectRelevantSkills, List.mem_map, List.mem_filter, Bool.and_eq_true,
      List.any_eq_true, strContains]
    constructor
    · rintro ⟨sk, ⟨hmem, hen, trig, htrig, hmatch⟩, rfl⟩
      rw [strLower_toList, strLower_toList] at hmatch
      exact ⟨sk, hmem, rfl, hen, trig, htrig, (listHasInfix_iff _ _).1 hmatch⟩
    · rintro ⟨sk, hmem, rfl, hen, trig, htrig, hinf⟩
      refine ⟨sk, ⟨hmem, hen, trig, htrig, ?_⟩, rfl⟩
      rw [strLower_toList, strLower_toList]
      exact (listHasInfix_iff _ _).2 hinf
  · exact hnd.sublist ((List.filter_sublist _).map _)
  · exact (List.filter_sublist _).map _

/-- Concrete skill used by the C9 witness. -/
def skillTravelW : SoulSkill :=
  { id := "travel_search", name := "Travel", description := "", category := "travel",
    triggers := ["flight", "hotel"], enabled := true }

/-- Concrete skill table used by the C9 witness: two enabled skills and one
disabled skill whose trigger also matches. -/
def soulW : AgentSoul :=
  { skills :=
    [skillTravelW,
     { id := "web_search", name := "Search", description := "", category := "info",
       triggers := ["today"], enabled := true },
     { id := "deep_think", name := "Think", description := "", category := "reasoning",
       triggers := ["flight"], enabled := false }] }

theorem detectRelevantSkills_spec_witness :
    (detectRelevantSkills "Book a FLIGHT today" soulW).Nodup ∧
      "travel_search" ∈ detectRelevantSkills "Book a FLIGHT today" soulW := by
  refine ⟨(detectRelevantSkills_spec "Book a FLIGHT today" soulW).2.1 (by decide), ?_⟩
  exact ((detectRelevantSkills_spec "Book a FLIGHT today" soulW).1 "travel_search").2
    ⟨skillTravelW, by decide, rfl, rfl, "flight", by decide,
      (listHasInfix_iff _ _).1 (by decide)⟩

-- =============================================================================
-- Claim C7: tool declarations offered to the model
-- =============================================================================

theorem buildMCPFunctionDeclarations_names (st : BrainState) :
    ∀ f ∈ buildMCPFunctionDeclarations st, f.name ∉ EXCLUDED_MCP_TOOLS := by
  intro f hf
  unfold buildMCPFunctionDeclarations at hf
  split at hf
  · simp at hf
  · obtain ⟨t, ht, rfl⟩ := List.mem_map.1 hf
    have hmem := (List.mem_filter.1 ht).2
    intro hcontra
    rw [Bool.not_eq_true'] at hmem
    have : EXCLUDED_MCP_TOOLS.contains t.name = true :=
      List.elem_eq_true_of_mem (by simpa [toFunctionDecl] using hcontra)
    rw [this] at hmem
    exact absurd hmem (by decide)

theorem buildChatTools_eq (st : BrainState) (uw ut us : Bool) :
    buildChatTools st uw ut us =
      if (uw || ut) && !(buildMCPFunctionDeclarations st).isEmpty then
        [GeminiToolConfig.functionDeclarations (buildMCPFunctionDeclarations st)]
      else if us then [GeminiToolConfig.googleSearch] else [] := by
  unfold buildChatTools
  cases uw <;> cases ut <;>
    rcases h : buildMCPFunctionDeclarations st with _ | ⟨d, ds⟩ <;> simp [h]

/-- C7: for every turn, MCP function declarations never include a deny-listed
name and appear only when the workspace or travel flag is set; the built-in
`googleSearch` grounding is declared only when no MCP function declarations are
included and the search flag is set; and one model call never declares both. -/
theorem buildChatTools_spec (st : BrainState) (uw ut us : Bool) :
    (∀ decls, GeminiToolConfig.functionDeclarations decls ∈ buildChatTools st uw ut us →
        (∀ f ∈ decls, f.name ∉ EXCLUDED_MCP_TOOLS) ∧ (uw = true ∨ ut = true))
    ∧ (GeminiToolConfig.googleSearch ∈ buildChatTools st uw ut us →
        us = true ∧
          ∀ decls, GeminiToolConfig.functionDeclarations decls ∉ buildChatTools st uw ut us)
    ∧ ¬(GeminiToolConfig.googleSearch ∈ buildChatTools st uw ut us ∧
        ∃ decls, GeminiToolConfig.functionDeclarations decls ∈ buildChatTools st uw ut us) := by
  rw [buildChatTools_eq]
  by_cases hcond : ((uw || ut) && !(buildMCPFunctionDeclarations st).isEmpty) = true
  · rw [if_pos hcond]
    have hflag : uw = true ∨ ut = true := by
      have h' := hcond
      simp only [Bool.and_eq_true, Bool.or_eq_true] at h'
      exact h'.1
    refine ⟨?_, ?_, ?_⟩
    · intro decls hmem
      rw [List.mem_singleton] at hmem
      cases hmem
      exact ⟨buildMCPFunctionDeclarations_names st, hflag⟩
    · intro hmem; simp at hmem
    · rintro ⟨hmem, -⟩; simp at hmem
  · rw [if_neg hcond]
    by_cases hs : us = true
    · rw [if_pos hs]
      refine ⟨?_, ?_, ?_⟩
      · intro decls hmem; simp at hmem
      · intro _; exact ⟨hs, by intro decls hmem; simp at hmem⟩
      · rintro ⟨-, decls, hmem⟩; simp at hmem
    · rw [if_neg hs]
      exact ⟨fun decls hmem => absurd hmem (List.not_mem_nil _),
        fun hmem => absurd hmem (List.not_mem_nil _),
        fun ⟨hmem, _⟩ => absurd hmem (List.not_mem_nil _)⟩

/-- Concrete brain state used by the C7 witness: a deny-listed tool plus a
travel tool in the catalog. -/
def brainStateW : BrainState :=
  { mcpConnected := true
    mcpTools :=
      [{ name := "search" }, { name := "search_flights", description := "flights" }] }

theorem buildChatTools_spec_witness :
    ("search" ∉ (buildMCPFunctionDeclarations brainStateW).map FunctionDecl.name) ∧
      GeminiToolConfig.functionDeclarations (buildMCPFunctionDeclarations brainStateW) ∈
        buildChatTools brainStateW false true true := by
  constructor
  · intro hmem
    obtain ⟨f, hf, hname⟩ := List.mem_map.1 hmem
    exact ((buildChatTools_spec brainStateW false true true).1
      (buildMCPFunctionDeclarations brainStateW) (by decide)).1 f hf (by rw [hname]; decide)
  · decide

-- =============================================================================
-- Claim C1: the iteration ceiling of the agentic loop
-- =============================================================================

theorem chatLoop_iterations_le (gen : GenBackend) (toolB : ToolBackend) :
    ∀ (fuel : Nat) (contents : List GenContent) (records : List ToolCallRecord)
      (disp : List (String × List (String × String))) (iters : Nat),
      (chatLoop gen toolB fuel contents records disp iters).iterations ≤ iters + fuel := by
  intro fuel
  induction fuel with
  | zero => intro contents records disp iters; simp [chatLoop]
  | succ n ih =>
    intro contents records disp iters
    rw [chatLoop]
    cases hg : generateWithFallback gen contents with
    | error e => simp
    | ok resp =>
      by_cases h : (functionCallPartsOf resp).isEmpty
      · simp [h]
      · simp only [h, Bool.false_eq_true, if_false]
        have := ih (contents ++ [modelTurnMessage (functionCallPartsOf resp),
          toolResponsesMessage toolB (functionCallPartsOf resp)])
          (records ++ (dispatchedOf (functionCallPartsOf resp)).map fun na =>
            mkToolCallRecord toolB na.1 na.2)
          (disp ++ dispatchedOf (functionCallPartsOf resp)) (iters + 1)
        omega

theorem chatLoop_exhausts (gen : GenBackend) (toolB : ToolBackend)
    (hgen : ∀ model cs, ∃ r, gen model cs = Except.ok r ∧ functionCallPartsOf r ≠ []) :
    ∀ (fuel : Nat) (contents : List GenContent) (records : List ToolCallRecord)
      (disp : List (String × List (String × String))) (iters : Nat),
      (chatLoop gen toolB fuel contents records disp iters).iterations = iters + fuel ∧
      (chatLoop gen toolB fuel contents records disp iters).text = exhaustedFallbackText ∧
      (chatLoop gen toolB fuel contents records disp iters).errored = false := by
  intro fuel
  induction fuel with
  | zero => intro contents records disp iters; simp [chatLoop]
  | succ n ih =>
    intro contents records disp iters
    obtain ⟨r, hr, hfc⟩ := hgen MODEL contents
    have hgw : generateWithFallback gen contents = Except.ok r := by
      simp [generateWithFallback, hr]
    rw [chatLoop, hgw]
    have hne : (functionCallPartsOf r).isEmpty = false := by
      cases hh : (functionCallPartsOf r).isEmpty
      · rfl
      · exact absurd (List.isEmpty_iff.1 hh) hfc
    simp only [hne, Bool.false_eq_true, if_false]
    have := ih (contents ++ [modelTurnMessage (functionCallPartsOf r),
        toolResponsesMessage toolB (functionCallPartsOf r)])
      (records ++ (dispatchedOf (functionCallPartsOf r)).map fun na =>
        mkToolCallRecord toolB na.1 na.2)
      (disp ++ dispatchedOf (functionCallPartsOf r)) (iters + 1)
    exact ⟨by rw [this.1]; omega, this.2⟩

/-- C1: the agentic loop of a turn never performs more than 8 model round
trips; with a backend whose every response requests a tool call, the loop runs
exactly 8 iterations and then returns the graceful fallback reply — neither an
unbounded loop nor a thrown error (`errored = false`, and the function is
total). -/
theorem chat_iteration_ceiling (gen : GenBackend) (toolB : ToolBackend)
    (contents : List GenContent) :
    (chatAgenticLoop gen toolB contents).iterations ≤ MAX_TOOL_ITERATIONS ∧
    ((∀ model cs, ∃ r, gen model cs = Except.ok r ∧ functionCallPartsOf r ≠ []) →
      (chatAgenticLoop gen toolB contents).iterations = 8 ∧
      (chatAgenticLoop gen toolB contents).text = exhaustedFallbackText ∧
      (chatAgenticLoop gen toolB contents).errored = false) := by
  constructor
  · simpa [chatAgenticLoop, MAX_TOOL_ITERATIONS] using
      chatLoop_iterations_le gen toolB MAX_TOOL_ITERATIONS contents [] [] 0
  · intro hgen
    simpa [chatAgenticLoop, MAX_TOOL_ITERATIONS] using
      chatLoop_exhausts gen toolB hgen MAX_TOOL_ITERATIONS contents [] [] 0

/-- A scripted backend whose every response requests one more tool call. -/
def genAlwaysCallW : GenBackend := fun _ _ =>
  Except.ok { parts := [GenPart.functionCall "search_flights" [("origin", "LAX")]], text := none }

/-- A tool backend whose every invocation succeeds with one text item. -/
def toolBOkW : ToolBackend := fun _ _ =>
  { content := [{ type := "text", text := some "ok" }] }

theorem chat_iteration_ceiling_witness :
    (chatAgenticLoop genAlwaysCallW toolBOkW []).iterations = 8 ∧
    (chatAgenticLoop genAlwaysCallW toolBOkW []).text = exhaustedFallbackText :=
  ⟨((chat_iteration_ceiling genAlwaysCallW toolBOkW []).2
      (fun _ _ => ⟨_, rfl, by decide⟩)).1,
   ((chat_iteration_ceiling genAlwaysCallW toolBOkW []).2
      (fun _ _ => ⟨_, rfl, by decide⟩)).2.1⟩

-- =============================================================================
-- Claim C2: tool call records and error feedback
-- =============================================================================

theorem chatLoop_records (gen : GenBackend) (toolB : ToolBackend) :
    ∀ (fuel : Nat) (contents : List GenContent) (records : List ToolCallRecord)
      (disp : List (String × List (String × String))) (iters : Nat),
      records = disp.map (fun na => mkToolCallRecord toolB na.1 na.2) →
      (chatLoop gen toolB fuel contents records disp iters).toolCalls =
        (chatLoop gen toolB fuel contents records disp iters).dispatched.map
          (fun na => mkToolCallRecord toolB na.1 na.2) := by
  intro fuel
  induction fuel with
  | zero => intro contents records disp iters hinv; simpa [chatLoop] using hinv
  | succ n ih =>
    intro contents records disp iters hinv
    rw [chatLoop]
    cases hg : generateWithFallback gen contents with
    | error e => simpa using hinv
    | ok resp =>
      by_cases h : (functionCallPartsOf resp).isEmpty
      · simpa [h] using hinv
      · simp only [h, Bool.false_eq_true, if_false]
        exact ih _ _ _ _ (by rw [hinv, List.map_append])

/-- C2: during one turn, exactly one `ToolCallRecord` is appended per
dispatched tool invocation — the records are precisely the dispatch log mapped
through the record constructor, for every tool backend, succeeding or failing —
with `status = "error"` exactly when the invocation result is error-tagged and
the record carrying the rendered result text; and after a response whose tool
invocation errored, the loop still feeds the synthesized tool-result message
(the same rendered text) back to the model and continues to the next round trip
instead of aborting.  Tool invocations cannot throw into the loop: the tool
backend is total (`callMCPTool` converts every exception into an error-tagged
result). -/
theorem chat_toolcall_record_invariant (gen : GenBackend) (toolB : ToolBackend)
    (contents : List GenContent) :
    ((chatAgenticLoop gen toolB contents).toolCalls =
       (chatAgenticLoop gen toolB contents).dispatched.map
         (fun na => mkToolCallRecord toolB na.1 na.2))
    ∧ (∀ rec ∈ (chatAgenticLoop gen toolB contents).toolCalls,
        (rec.status = "error" ↔ (toolB rec.name rec.args).isError = true) ∧
        rec.result = renderResultText (toolB rec.name rec.args))
    ∧ (∀ resp1 resp2,
        generateWithFallback gen contents = Except.ok resp1 →
        functionCallPartsOf resp1 ≠ [] →
        generateWithFallback gen
          (contents ++ [modelTurnMessage (functionCallPartsOf resp1),
                        toolResponsesMessage toolB (functionCallPartsOf resp1)]) =
          Except.ok resp2 →
        functionCallPartsOf resp2 = [] →
        (chatAgenticLoop gen toolB contents).text = textOrFallback resp2.text ∧
        (chatAgenticLoop gen toolB contents).iterations = 2 ∧
        (chatAgenticLoop gen toolB contents).errored = false ∧
        (chatAgenticLoop gen toolB contents).toolCalls =
          (dispatchedOf (functionCallPartsOf resp1)).map
            (fun na => mkToolCallRecord toolB na.1 na.2)) := by
  have hrec := chatLoop_records gen toolB MAX_TOOL_ITERATIONS contents [] [] 0 (by simp)
  refine ⟨hrec, ?_, ?_⟩
  · intro rec hmem
    simp only [chatAgenticLoop] at hmem
    rw [hrec] at hmem
    obtain ⟨na, _, rfl⟩ := List.mem_map.1 hmem
    refine ⟨?_, by simp [mkToolCallRecord]⟩
    cases hie : (toolB na.1 na.2).isError <;>
      simp [mkToolCallRecord, hie]
  · intro resp1 resp2 h1 hfc1 h2 hfc2
    have hne : (functionCallPartsOf resp1).isEmpty = false := by
      cases hh : (functionCallPartsOf resp1).isEmpty
      · rfl
      · exact absurd (List.isEmpty_iff.1 hh) hfc1
    have h8 : MAX_TOOL_ITERATIONS = 6 + 1 + 1 := by rfl
    simp only [chatAgenticLoop]
    rw [h8, chatLoop, h1]
    simp only [hne, Bool.false_eq_true, if_false]
    rw [chatLoop, h2]
    simp [hfc2, List.isEmpty_iff]

/-- A scripted backend for the C2 witness: it requests one tool call on the
opening conversation and answers with final text once tool results arrived. -/
def genErrorThenFinalW : GenBackend := fun _ cs =>
  if cs.length ≤ 1 then
    Except.ok { parts := [GenPart.functionCall "gmail_list_emails" []], text := none }
  else
    Except.ok { parts := [GenPart.text "done" false], text := some "All done." }

/-- A tool backend whose every invocation fails with an error-tagged result. -/
def toolBErrW : ToolBackend := fun name _ =>
  errorResult ("Error calling " ++ name ++ ": scripted failure")

theorem chat_toolcall_record_invariant_witness :
    (chatAgenticLoop genErrorThenFinalW toolBErrW []).text = "All done." ∧
    (chatAgenticLoop genErrorThenFinalW toolBErrW []).toolCalls.map ToolCallRecord.status =
      ["error"] := by
  have h := (chat_toolcall_record_invariant genErrorThenFinalW toolBErrW []).2.2
    { parts := [GenPart.functionCall "gmail_list_emails" []], text := none }
    { parts := [GenPart.text "done" false], text := some "All done." }
    rfl (by decide) rfl (by decide)
  refine ⟨by rw [h.1]; decide, by rw [h.2.2.2]; decide⟩

-- =============================================================================
-- Claim C10: the localhost guard of `callMCPTool`
-- =============================================================================

/-- C10: when the server URL resolved for the normalized tool name contains
`localhost` or starts with `http://127.0.0.1`, `callMCPTool` returns an
error-tagged result carrying an explanatory text item and issues no network
request at all (the network log is untouched and every script is intact). -/
theorem callMCPTool_localhost_guard (cfg : MCPConfig) (toolName : String)
    (args : List (String × String)) (w : World)
    (hbase : resolveToolBaseUrl cfg w (normalizeToolName toolName) ≠ "")
    (hlocal : localhostGuard (resolveToolBaseUrl cfg w (normalizeToolName toolName)) = true) :
    (callMCPTool cfg toolName args w).1.isError = true ∧
    (callMCPTool cfg toolName args w).1.hasTextItem = true ∧
    (callMCPTool cfg toolName args w).2 = w := by
  simp only [callMCPTool, callMCPToolBody]
  rw [if_neg hbase, if_pos hlocal]
  simp [errorResult, MCPToolResult.hasTextItem]

/-- Concrete routing table for the C10 witness. -/
def worldLocalhostW : World := { toolToServer := [("mytool", "http://localhost:3000/mcp")] }

theorem callMCPTool_localhost_guard_witness :
    (callMCPTool {} "mytool" [] worldLocalhostW).1.isError = true ∧
    (callMCPTool {} "mytool" [] worldLocalhostW).2.netLog = [] := by
  refine ⟨(callMCPTool_localhost_guard {} "mytool" [] worldLocalhostW
    (by decide) (by decide)).1, ?_⟩
  rw [(callMCPTool_localhost_guard {} "mytool" [] worldLocalhostW
    (by decide) (by decide)).2.2]
  rfl

-- =============================================================================
-- Claim C4: expired-token refresh in `getMCPAuthHeaders`
-- =============================================================================

theorem refreshGoogleToken_fail (cfg : MCPConfig) (w : World) (rt : String)
    (o : RefreshOutcome) (rest : List RefreshOutcome)
    (hrt : w.refreshToken = some rt)
    (hbase : mcpServerBase cfg ≠ "")
    (hscript : w.refreshScript = o :: rest)
    (hfail : o.fails) :
    refreshGoogleToken cfg w =
      (false,
        { w with accessToken := none, refreshToken := none, tokenExpiry := 0,
                 persistedAccess := none, persistedRefresh := none, persistedExpiry := none,
                 refreshScript := rest,
                 netLog := w.netLog ++ [NetCall.refreshPost],
                 events := w.events ++ [AuthEvent.token_cleared, AuthEvent.needs_relogin] }) := by
  have hb : (mcpServerBase cfg = "") = False := eq_false hbase
  rcases o with m | st | _ | ⟨atk, ei⟩
  · simp [refreshGoogleToken, popRefresh, clearMCPGoogleToken, emitAuthEvent, hrt, hscript, hb]
  · simp [refreshGoogleToken, popRefresh, clearMCPGoogleToken, emitAuthEvent, hrt, hscript, hb]
  · simp [refreshGoogleToken, popRefresh, clearMCPGoogleToken, emitAuthEvent, hrt, hscript, hb]
  · cases atk with
    | some t => exact hfail.elim
    | none =>
      simp [refreshGoogleToken, popRefresh, clearMCPGoogleToken, emitAuthEvent, hrt, hscript, hb]

/-- C4: serving a non-static-key endpoint while the cached OAuth token has
`expiry <= now`, `getMCPAuthHeaders` makes exactly one refresh HTTP attempt
before deciding the headers; since that refresh fails, the returned headers
carry no `Authorization` bearer header, exactly one `needs_relogin` event is
emitted for the episode, and any later call in the same episode performs no
further refresh attempt and emits nothing (it returns the same bare headers and
leaves the state untouched).  The function is total — no exception escapes. -/
theorem getMCPAuthHeaders_expired_refresh (cfg : MCPConfig) (mcpUrl : Option String)
    (w : World) (tok rt : String) (o : RefreshOutcome) (rest : List RefreshOutcome)
    (hroute : isTravelKeyRoute cfg mcpUrl = false)
    (htok : w.accessToken = some tok)
    (hexp : w.tokenExpiry ≤ w.now)
    (hrt : w.refreshToken = some rt)
    (hbase : mcpServerBase cfg ≠ "")
    (hscript : w.refreshScript = o :: rest)
    (hfail : o.fails) :
    (getMCPAuthHeaders cfg mcpUrl w).1 = [("Content-Type", "application/json")]
    ∧ (∀ v, ("Authorization", v) ∉ (getMCPAuthHeaders cfg mcpUrl w).1)
    ∧ (getMCPAuthHeaders cfg mcpUrl w).2.netLog.count NetCall.refreshPost =
        w.netLog.count NetCall.refreshPost + 1
    ∧ (getMCPAuthHeaders cfg mcpUrl w).2.events.count AuthEvent.needs_relogin =
        w.events.count AuthEvent.needs_relogin + 1
    ∧ (∀ mcpUrl2, isTravelKeyRoute cfg mcpUrl2 = false →
        getMCPAuthHeaders cfg mcpUrl2 (getMCPAuthHeaders cfg mcpUrl w).2 =
          ([("Content-Type", "application/json")], (getMCPAuthHeaders cfg mcpUrl w).2)) := by
  have hfw := refreshGoogleToken_fail cfg w rt o rest hrt hbase hscript hfail
  have hmain : getMCPAuthHeaders cfg mcpUrl w =
      ([("Content-Type", "application/json")],
        { w with accessToken := none, refreshToken := none, tokenExpiry := 0,
                 persistedAccess := none, persistedRefresh := none, persistedExpiry := none,
                 refreshScript := rest,
                 netLog := w.netLog ++ [NetCall.refreshPost],
                 events := w.events ++ [AuthEvent.token_cleared, AuthEvent.needs_relogin] }) := by
    simp only [getMCPAuthHeaders, hroute, htok, Bool.false_eq_true, if_false]
    rw [if_pos hexp, hfw]
  rw [hmain]
  refine ⟨rfl, by simp, by simp [List.count_append], by simp [List.count_append], ?_⟩
  intro mcpUrl2 hroute2
  simp only [getMCPAuthHeaders, hroute2, Bool.false_eq_true, if_false]

/-- Concrete configuration for the C4 witness. -/
def cfg4W : MCPConfig := { googleUrl := "https://g.example/mcp" }

/-- Concrete world for the C4 witness: a cached OAuth token already expired and
a scripted refresh rejection. -/
def w4W : World :=
  { now := 10, accessToken := some "tok", refreshToken := some "rt", tokenExpiry := 5,
    refreshScript := [RefreshOutcome.httpError 400] }

theorem getMCPAuthHeaders_expired_refresh_witness :
    (getMCPAuthHeaders cfg4W none w4W).1 = [("Content-Type", "application/json")] ∧
    (getMCPAuthHeaders cfg4W none w4W).2.netLog.count NetCall.refreshPost = 1 ∧
    (getMCPAuthHeaders cfg4W none w4W).2.events.count AuthEvent.needs_relogin = 1 := by
  have h := getMCPAuthHeaders_expired_refresh cfg4W none w4W "tok" "rt"
    (RefreshOutcome.httpError 400) [] (by decide) rfl (by decide) rfl (by decide) rfl trivial
  exact ⟨h.1, by rw [h.2.2.1]; rfl, by rw [h.2.2.2.1]; rfl⟩

-- =============================================================================
-- Claims C5 and C8: discovery aggregation lemmas
-- =============================================================================

theorem find?_filter_ne (m : List (String × String)) (k k' : String) (h : k' ≠ k) :
    (m.filter fun p => !(p.1 == k)).find? (fun p => p.1 == k') =
      m.find? (fun p => p.1 == k') := by
  induction m with
  | nil => rfl
  | cons p rest ih =>
    by_cases hp : p.1 = k
    · have h1 : (!(p.1 == k)) = false := by simp [hp]
      have h2 : (p.1 == k') = false := by simp [hp]; exact fun hc => h hc.symm
      simp [List.filter_cons, h1, List.find?_cons, h2, ih]
    · have h1 : (!(p.1 == k)) = true := by simp [hp]
      cases h2 : (p.1 == k') with
      | true => simp [List.filter_cons, h1, List.find?_cons, h2]
      | false => simp [List.filter_cons, h1, List.find?_cons, h2, ih]

theorem mapGet_mapSet_self (m : List (String × String)) (k v : String) :
    mapGet (mapSet m k v) k = some v := by
  simp [mapGet, mapSet, List.find?_cons]

theorem mapGet_mapSet_other (m : List (String × String)) (k k' v : String) (h : k' ≠ k) :
    mapGet (mapSet m k v) k' = mapGet m k' := by
  have h2 : ((k, v).1 == k') = false := by simp; exact fun hc => h hc.symm
  simp only [mapGet, mapSet]
  rw [List.find?_cons_of_neg _ (by simpa using h2)]
  rw [find?_filter_ne m k k' h]

theorem aggregateTools_cons (acc : List MCPTool × List (String × String)) (t : MCPTool)
    (ts : List MCPTool) (base : String) :
    aggregateTools acc (t :: ts) base =
      aggregateTools (acc.1 ++ [t], mapSet acc.2 t.name base) ts base := rfl

theorem aggregateTools_fst (ts : List MCPTool) :
    ∀ (acc : List MCPTool × List (String × String)) (base : String),
      (aggregateTools acc ts base).1 = acc.1 ++ ts := by
  induction ts with
  | nil => intro acc base; simp [aggregateTools]
  | cons t ts ih =>
    intro acc base
    rw [aggregateTools_cons, ih]
    simp

theorem aggregateTools_snd_not_mem (ts : List MCPTool) :
    ∀ (acc : List MCPTool × List (String × String)) (base name : String),
      name ∉ ts.map MCPTool.name →
      mapGet (aggregateTools acc ts base).2 name = mapGet acc.2 name := by
  induction ts with
  | nil => intro acc base name _; rfl
  | cons t ts ih =>
    intro acc base name h
    rw [List.map_cons, List.mem_cons] at h
    push_neg at h
    rw [aggregateTools_cons, ih _ _ _ h.2]
    exact mapGet_mapSet_other _ _ _ _ h.1

theorem aggregateTools_snd_mem (ts : List MCPTool) :
    ∀ (acc : List MCPTool × List (String × String)) (base name : String),
      name ∈ ts.map MCPTool.name →
      mapGet (aggregateTools acc ts base).2 name = some base := by
  induction ts with
  | nil => intro acc base name h; simp at h
  | cons t ts ih =>
    intro acc base name h
    rw [aggregateTools_cons]
    by_cases hm : name ∈ ts.map MCPTool.name
    · exact ih _ _ _ hm
    · have hname : name = t.name := by
        rw [List.map_cons] at h
        rcases List.mem_cons.1 h with h' | h'
        · exact h'
        · exact absurd h' hm
      rw [aggregateTools_snd_not_mem ts _ _ _ hm, hname]
      exact mapGet_mapSet_self _ _ _

theorem getMCPAuthHeaders_noToken_pair (cfg : MCPConfig) (u : Option String) (w : World)
    (htok : w.accessToken = none) (hroute : isTravelKeyRoute cfg u = false) :
    getMCPAuthHeaders cfg u w = ([("Content-Type", "application/json")], w) := by
  simp only [getMCPAuthHeaders, hroute, Bool.false_eq_true, if_false, htok]

theorem loadPersistedAuth_initialized (w : World) (h : w.authInitialized = true) :
    loadPersistedAuth w = w := by
  simp [loadPersistedAuth, h]

/-- Scripted response completing the `initialize` handshake and assigning
session id `sid`. -/
def mcpInitRespW (sid : String) : McpOutcome :=
  McpOutcome.resp 200 (some sid) (McpBody.plainJson (some { result := some (McpResultVal.other "caps") }))

/-- Scripted acknowledgement of the `notifications/initialized` one-way call. -/
def mcpNoteRespW : McpOutcome := McpOutcome.resp 202 none (McpBody.plainJson none)

/-- Scripted `tools/list` response carrying catalog `ts`. -/
def mcpListRespW (ts : List MCPTool) : McpOutcome :=
  McpOutcome.resp 200 none (McpBody.plainJson (some { result := some (McpResultVal.toolsList ts) }))

theorem fetchToolsFromServer_mcp_ok (cfg : MCPConfig) (baseUrl : String)
    (rootUrl : Option String) (serverName sid : String) (ts : List MCPTool) (w : World)
    (restM : List McpOutcome)
    (hsess : mapGet w.sessions baseUrl = none)
    (hroute : isTravelKeyRoute cfg (some baseUrl) = false)
    (htok : w.accessToken = none)
    (hscript : w.mcpScript = mcpInitRespW sid :: mcpNoteRespW :: mcpListRespW ts :: restM)
    (hts : ts ≠ []) :
    fetchToolsFromServer cfg baseUrl rootUrl serverName w =
      ((ts, baseUrl),
       { w with mcpScript := restM,
                sessions := mapSet w.sessions baseUrl sid,
                serverProtocol := mapSet w.serverProtocol baseUrl "mcp",
                netLog := w.netLog ++ [NetCall.mcpPost baseUrl, NetCall.mcpPost baseUrl,
                  NetCall.mcpPost baseUrl] }) := by
  have hpos : ts.length > 0 := List.length_pos.2 hts
  simp only [fetchToolsFromServer, mcpListTools, mcpInitialize, mcpRpc, popMcp,
    parseMcpResponse, httpOk, mcpInitRespW, mcpNoteRespW, mcpListRespW,
    getMCPAuthHeaders_noToken_pair cfg (some baseUrl) w htok hroute, hsess, hscript]
  simp only [getMCPAuthHeaders, hroute, Bool.false_eq_true, if_false, htok]
  simp [hpos, List.append_assoc]

theorem fetchToolsFromServer_all_fail (cfg : MCPConfig) (baseUrl r : String)
    (serverName : String) (w : World) (m m1 m2 m3 m4 : String)
    (restM : List McpOutcome) (restD : List DiscOutcome)
    (hname : (serverName == "travel") = false)
    (hroute : isTravelKeyRoute cfg (some baseUrl) = false)
    (htok : w.accessToken = none)
    (hsess : mapGet w.sessions baseUrl = none)
    (hmcp : w.mcpScript = McpOutcome.netError m :: restM)
    (hdisc : w.discScript = DiscOutcome.netError m1 :: DiscOutcome.netError m2 ::
      DiscOutcome.netError m3 :: DiscOutcome.netError m4 :: restD) :
    fetchToolsFromServer cfg baseUrl (some r) serverName w =
      (([], baseUrl),
       { w with mcpScript := restM, discScript := restD,
                netLog := w.netLog ++ [NetCall.mcpPost baseUrl,
                  NetCall.discGet (r ++ "/api/tools"), NetCall.discGet (r ++ "/tools"),
                  NetCall.discGet (dropOneSuffix baseUrl "/mcp" ++ "/api/tools"),
                  NetCall.discGet (dropOneSuffix baseUrl "/mcp" ++ "/tools")] }) := by
  simp only [fetchToolsFromServer, mcpListTools, mcpInitialize, mcpRpc, popMcp,
    getMCPAuthHeaders_noToken_pair cfg (some baseUrl) w htok hroute, hsess, hmcp, hname]
  simp only [getMCPAuthHeaders, hroute, Bool.false_eq_true, if_false, htok]
  simp only [discCandidates, restDiscoveryLoop, popDisc, List.flatMap_cons, List.flatMap_nil]
  simp [hdisc, List.append_assoc]

/-- The two-endpoint configuration used by the C5 and C8 scenarios. -/
def cfg58 : MCPConfig := { googleUrl := "https://g.example", travelUrl := "https://t.example" }

/-- The normalized Google Workspace MCP endpoint of `cfg58`. -/
def googleBase58 : String := "https://g.example/mcp"

/-- The normalized Travel MCP endpoint of `cfg58`. -/
def travelBase58 : String := "https://t.example/mcp"

/-- Scenario world for C5: both endpoints discover over the MCP protocol,
yielding catalogs `ts1` (Google, discovered first) and `ts2` (Travel, last). -/
def w5 (ts1 ts2 : List MCPTool) : World :=
  { mcpScript := [mcpInitRespW "sidg", mcpNoteRespW, mcpListRespW ts1,
                  mcpInitRespW "sidt", mcpNoteRespW, mcpListRespW ts2] }

theorem getMcpServerUrls_cfg58 :
    getMcpServerUrls cfg58 =
      [{ baseUrl := googleBase58, name := "google", rootUrl := some "https://g.example" },
       { baseUrl := travelBase58, name := "travel", rootUrl := some "https://t.example" }] := by
  decide

/-- World state at the start of the C5 discovery fold (routing table reset). -/
def w5a (ts1 ts2 : List MCPTool) : World := { w5 ts1 ts2 with toolToServer := [] }

/-- World state after the Google endpoint's healthy MCP discovery. -/
def w5b (ts1 ts2 : List MCPTool) : World :=
  { w5a ts1 ts2 with
    mcpScript := [mcpInitRespW "sidt", mcpNoteRespW, mcpListRespW ts2],
    sessions := mapSet (w5a ts1 ts2).sessions googleBase58 "sidg",
    serverProtocol := mapSet (w5a ts1 ts2).serverProtocol googleBase58 "mcp",
    netLog := (w5a ts1 ts2).netLog ++ [NetCall.mcpPost googleBase58,
      NetCall.mcpPost googleBase58, NetCall.mcpPost googleBase58] }

/-- World state after Travel's healthy MCP discovery as well. -/
def w5c (ts1 ts2 : List MCPTool) : World :=
  { w5b ts1 ts2 with
    mcpScript := [],
    sessions := mapSet (w5b ts1 ts2).sessions travelBase58 "sidt",
    serverProtocol := mapSet (w5b ts1 ts2).serverProtocol travelBase58 "mcp",
    netLog := (w5b ts1 ts2).netLog ++ [NetCall.mcpPost travelBase58,
      NetCall.mcpPost travelBase58, NetCall.mcpPost travelBase58] }

theorem discoverServers_w5 (ts1 ts2 : List MCPTool) (h1 : ts1 ≠ []) (h2 : ts2 ≠ []) :
    discoverServers cfg58 (getMcpServerUrls cfg58) ([], []) (w5a ts1 ts2) =
      (aggregateTools (aggregateTools ([], []) ts1 googleBase58) ts2 travelBase58,
        w5c ts1 ts2) := by
  have hf1 : fetchToolsFromServer cfg58 googleBase58 (some "https://g.example") "google"
      (w5a ts1 ts2) = ((ts1, googleBase58), w5b ts1 ts2) :=
    fetchToolsFromServer_mcp_ok cfg58 googleBase58 (some "https://g.example") "google"
      "sidg" ts1 (w5a ts1 ts2) [mcpInitRespW "sidt", mcpNoteRespW, mcpListRespW ts2]
      rfl (by decide) rfl rfl h1
  have hf2 : fetchToolsFromServer cfg58 travelBase58 (some "https://t.example") "travel"
      (w5b ts1 ts2) = ((ts2, travelBase58), w5c ts1 ts2) :=
    fetchToolsFromServer_mcp_ok cfg58 travelBase58 (some "https://t.example") "travel"
      "sidt" ts2 (w5b ts1 ts2) [] rfl (by decide) rfl rfl h2
  rw [getMcpServerUrls_cfg58]
  simp only [discoverServers]
  rw [hf1]
  dsimp only
  rw [hf2]

theorem listMCPTools_w5_eq (ts1 ts2 : List MCPTool) (h1 : ts1 ≠ []) (h2 : ts2 ≠ []) :
    listMCPTools cfg58 (w5 ts1 ts2) =
      ((aggregateTools (aggregateTools ([], []) ts1 googleBase58) ts2 travelBase58).1,
       { w5c ts1 ts2 with toolToServer :=
          (aggregateTools (aggregateTools ([], []) ts1 googleBase58) ts2 travelBase58).2 }) := by
  simp only [listMCPTools, loadPersistedAuth_initialized (w5 ts1 ts2) rfl]
  rw [show ({ w5 ts1 ts2 with toolToServer := [] } : World) = w5a ts1 ts2 from rfl]
  rw [discoverServers_w5 ts1 ts2 h1 h2]

/-- Google-owned catalog entry colliding on the name `dup`. -/
def dupToolG : MCPTool := { name := "dup", description := "from google" }

/-- Travel-owned catalog entry colliding on the name `dup`. -/
def dupToolT : MCPTool := { name := "dup", description := "from travel" }

/-- C5 counterexample: with two healthy endpoints both publishing a tool named
`dup`, the merged catalog returned by `listMCPTools` keeps BOTH entries — the
name occurs twice, so the catalog is not de-duplicated by name as claimed.
Only the routing table is last-wins de-duplicated. -/
theorem listMCPTools_catalog_not_deduplicated :
    ((listMCPTools cfg58 (w5 [dupToolG] [dupToolT])).1.map MCPTool.name).count "dup" = 2 ∧
    (listMCPTools cfg58 (w5 [dupToolG] [dupToolT])).1 = [dupToolG, dupToolT] ∧
    mapGet (listMCPTools cfg58 (w5 [dupToolG] [dupToolT])).2.toolToServer "dup" =
      some travelBase58 := by
  rw [listMCPTools_w5_eq [dupToolG] [dupToolT] (by decide) (by decide)]
  refine ⟨by decide, by decide, by decide⟩

theorem initializeMCPConnection_w5_eq (ts1 ts2 : List MCPTool) (h1 : ts1 ≠ []) (h2 : ts2 ≠ []) :
    initializeMCPConnection cfg58 (w5 ts1 ts2) =
      (Except.ok
        { sessionId := "session-" ++ toString (0 : Nat), connected := true,
          tools := (aggregateTools (aggregateTools ([], []) ts1 googleBase58) ts2
            travelBase58).1,
          toolToServer := (aggregateTools (aggregateTools ([], []) ts1 googleBase58) ts2
            travelBase58).2 },
       { w5c ts1 ts2 with
          toolToServer := (aggregateTools (aggregateTools ([], []) ts1 googleBase58) ts2
            travelBase58).2,
          currentSession := some
            { sessionId := "session-" ++ toString (0 : Nat), connected := true,
              tools := (aggregateTools (aggregateTools ([], []) ts1 googleBase58) ts2
                travelBase58).1,
              toolToServer := (aggregateTools (aggregateTools ([], []) ts1 googleBase58) ts2
                travelBase58).2 } }) := by
  have hne : (aggregateTools (aggregateTools ([], []) ts1 googleBase58) ts2
      travelBase58).1.isEmpty = false := by
    rw [aggregateTools_fst, aggregateTools_fst]
    rcases ts1 with _ | ⟨t, ts⟩
    · exact absurd rfl h1
    · rfl
  simp only [initializeMCPConnection, loadPersistedAuth_initialized (w5 ts1 ts2) rfl]
  rw [show (w5 ts1 ts2 : World) = w5a ts1 ts2 from rfl]
  rw [discoverServers_w5 ts1 ts2 h1 h2]
  simp [hne]
  rfl

/-- C5 (amended): after a discovery pass (`listMCPTools` or
`initializeMCPConnection`) over two healthy endpoints, the merged catalog is
flat but NOT de-duplicated by name — it is the concatenation of every
endpoint's tools in discovery order, keeping every entry on a name collision —
while the name→endpoint routing table is rebuilt in full and is de-duplicated
with last-endpoint-discovered-wins: every catalog name maps to the endpoint
that last contributed it. -/
theorem discovery_catalog_and_routing (ts1 ts2 : List MCPTool) (h1 : ts1 ≠ []) (h2 : ts2 ≠ []) :
    ((listMCPTools cfg58 (w5 ts1 ts2)).1 = ts1 ++ ts2)
    ∧ (∀ name ∈ ts2.map MCPTool.name,
        mapGet (listMCPTools cfg58 (w5 ts1 ts2)).2.toolToServer name = some travelBase58)
    ∧ (∀ name, name ∈ ts1.map MCPTool.name → name ∉ ts2.map MCPTool.name →
        mapGet (listMCPTools cfg58 (w5 ts1 ts2)).2.toolToServer name = some googleBase58)
    ∧ (∃ sess, (initializeMCPConnection cfg58 (w5 ts1 ts2)).1 = Except.ok sess ∧
        sess.tools = ts1 ++ ts2 ∧
        (∀ name ∈ ts2.map MCPTool.name, mapGet sess.toolToServer name = some travelBase58) ∧
        (∀ name, name ∈ ts1.map MCPTool.name → name ∉ ts2.map MCPTool.name →
          mapGet sess.toolToServer name = some googleBase58)) := by
  rw [listMCPTools_w5_eq ts1 ts2 h1 h2, initializeMCPConnection_w5_eq ts1 ts2 h1 h2]
  refine ⟨?_, ?_, ?_, ?_⟩
  · rw [aggregateTools_fst, aggregateTools_fst]; simp
  · intro name hmem
    exact aggregateTools_snd_mem ts2 _ travelBase58 name hmem
  · intro name hmem hnot
    rw [aggregateTools_snd_not_mem ts2 _ travelBase58 name hnot]
    exact aggregateTools_snd_mem ts1 _ googleBase58 name hmem
  · refine ⟨_, rfl, ?_, ?_, ?_⟩
    · rw [aggregateTools_fst, aggregateTools_fst]; simp
    · intro name hmem
      exact aggregateTools_snd_mem ts2 _ travelBase58 name hmem
    · intro name hmem hnot
      rw [aggregateTools_snd_not_mem ts2 _ travelBase58 name hnot]
      exact aggregateTools_snd_mem ts1 _ googleBase58 name hmem

/-- Google-owned catalog entry used by the C5 witness. -/
def wtoolG : MCPTool := { name := "gmail_list_emails", description := "list" }

/-- Travel-owned catalog entry used by the C5 witness. -/
def wtoolT : MCPTool := { name := "search_flights", description := "flights" }

theorem discovery_catalog_and_routing_witness :
    (listMCPTools cfg58 (w5 [wtoolG] [wtoolT])).1 = [wtoolG, wtoolT] ∧
    mapGet (listMCPTools cfg58 (w5 [wtoolG] [wtoolT])).2.toolToServer "search_flights" =
      some travelBase58 ∧
    mapGet (listMCPTools cfg58 (w5 [wtoolG] [wtoolT])).2.toolToServer "gmail_list_emails" =
      some googleBase58 := by
  have h := discovery_catalog_and_routing [wtoolG] [wtoolT] (by decide) (by decide)
  exact ⟨h.1, h.2.1 "search_flights" (by decide),
    h.2.2.1 "gmail_list_emails" (by decide) (by decide)⟩

-- =============================================================================
-- Claim C8: partial-failure isolation in discovery
-- =============================================================================

/-- Scenario world for C8: the Google endpoint's discovery raises transport
errors everywhere (MCP handshake and all four REST discovery candidates) while
Travel discovers healthily with catalog `ts`. -/
def w8 (ts : List MCPTool) : World :=
  { mcpScript := [McpOutcome.netError "connection refused",
      mcpInitRespW "sidt", mcpNoteRespW, mcpListRespW ts],
    discScript := [DiscOutcome.netError "e1", DiscOutcome.netError "e2",
      DiscOutcome.netError "e3", DiscOutcome.netError "e4"] }

/-- World state at the start of the C8 discovery fold. -/
def w8a (ts : List MCPTool) : World := { w8 ts with toolToServer := [] }

/-- World state after the Google endpoint's failed discovery pass. -/
def w8b (ts : List MCPTool) : World :=
  { w8a ts with
    mcpScript := [mcpInitRespW "sidt", mcpNoteRespW, mcpListRespW ts],
    discScript := [],
    netLog := (w8a ts).netLog ++ [NetCall.mcpPost googleBase58,
      NetCall.discGet ("https://g.example" ++ "/api/tools"),
      NetCall.discGet ("https://g.example" ++ "/tools"),
      NetCall.discGet (dropOneSuffix googleBase58 "/mcp" ++ "/api/tools"),
      NetCall.discGet (dropOneSuffix googleBase58 "/mcp" ++ "/tools")] }

/-- World state after Travel's healthy MCP discovery as well. -/
def w8c (ts : List MCPTool) : World :=
  { w8b ts with
    mcpScript := [],
    sessions := mapSet (w8b ts).sessions travelBase58 "sidt",
    serverProtocol := mapSet (w8b ts).serverProtocol travelBase58 "mcp",
    netLog := (w8b ts).netLog ++ [NetCall.mcpPost travelBase58,
      NetCall.mcpPost travelBase58, NetCall.mcpPost travelBase58] }

theorem discoverServers_w8 (ts : List MCPTool) (h : ts ≠ []) :
    discoverServers cfg58 (getMcpServerUrls cfg58) ([], []) (w8a ts) =
      (aggregateTools ([], []) ts travelBase58, w8c ts) := by
  have hf1 : fetchToolsFromServer cfg58 googleBase58 (some "https://g.example") "google"
      (w8a ts) = (([], googleBase58), w8b ts) :=
    fetchToolsFromServer_all_fail cfg58 googleBase58 "https://g.example" "google"
      (w8a ts) "connection refused" "e1" "e2" "e3" "e4"
      [mcpInitRespW "sidt", mcpNoteRespW, mcpListRespW ts] []
      (by decide) (by decide) rfl rfl rfl rfl
  have hf2 : fetchToolsFromServer cfg58 travelBase58 (some "https://t.example") "travel"
      (w8b ts) = ((ts, travelBase58), w8c ts) :=
    fetchToolsFromServer_mcp_ok cfg58 travelBase58 (some "https://t.example") "travel"
      "sidt" ts (w8b ts) [] rfl (by decide) rfl rfl h
  rw [getMcpServerUrls_cfg58]
  simp only [discoverServers]
  rw [hf1]
  dsimp only
  rw [hf2]
  rfl

theorem listMCPTools_w8_eq (ts : List MCPTool) (h : ts ≠ []) :
    listMCPTools cfg58 (w8 ts) =
      ((aggregateTools ([], []) ts travelBase58).1,
       { w8c ts with toolToServer := (aggregateTools ([], []) ts travelBase58).2 }) := by
  simp only [listMCPTools, loadPersistedAuth_initialized (w8 ts) rfl]
  rw [show ({ w8 ts with toolToServer := [] } : World) = w8a ts from rfl]
  rw [discoverServers_w8 ts h]

/-- C8: when discovery against one endpoint raises a transport error, the
aggregated catalog excludes that endpoint's tools but still contains every
healthy endpoint's tools, all correctly routed — one endpoint's failure never
aborts discovery for the others. -/
theorem discovery_partial_failure_isolation (ts : List MCPTool) (h : ts ≠ []) :
    (listMCPTools cfg58 (w8 ts)).1 = ts
    ∧ (∀ name ∈ ts.map MCPTool.name,
        mapGet (listMCPTools cfg58 (w8 ts)).2.toolToServer name = some travelBase58) := by
  rw [listMCPTools_w8_eq ts h]
  refine ⟨by rw [aggregateTools_fst]; simp, ?_⟩
  intro name hmem
  exact aggregateTools_snd_mem ts _ travelBase58 name hmem

theorem discovery_partial_failure_isolation_witness :
    (listMCPTools cfg58 (w8 [wtoolT])).1 = [wtoolT] ∧
    mapGet (listMCPTools cfg58 (w8 [wtoolT])).2.toolToServer "search_flights" =
      some travelBase58 := by
  have h := discovery_partial_failure_isolation [wtoolT] (by decide)
  exact ⟨h.1, h.2 "search_flights" (by decide)⟩

-- =============================================================================
-- Frame lemmas: the auth store never touches scripts, routing or ghost counters
-- =============================================================================

/-- Fields of the world that the auth-header path never writes: the scripted
network, the session/routing/protocol maps and the ghost 401 counters. -/
def preservesScripts (w w' : World) : Prop :=
  w'.restScript = w.restScript ∧ w'.mcpScript = w.mcpScript ∧
  w'.discScript = w.discScript ∧ w'.sessions = w.sessions ∧
  w'.serverProtocol = w.serverProtocol ∧ w'.toolToServer = w.toolToServer ∧
  w'.g401Refresh = w.g401Refresh ∧ w'.g401Retry = w.g401Retry

theorem refreshGoogleToken_frame (cfg : MCPConfig) (w : World) :
    preservesScripts w (refreshGoogleToken cfg w).2 := by
  rcases hrt : w.refreshToken with _ | rt
  · by_cases ha : w.accessToken.isSome <;>
      simp [preservesScripts, refreshGoogleToken, hrt, ha, clearMCPGoogleToken, emitAuthEvent]
  · by_cases hb : mcpServerBase cfg = ""
    · simp [preservesScripts, refreshGoogleToken, hrt, hb, clearMCPGoogleToken, emitAuthEvent]
    · rcases hs : w.refreshScript with _ | ⟨o, rest⟩
      · simp [preservesScripts, refreshGoogleToken, hrt, hb, hs, popRefresh,
          clearMCPGoogleToken, emitAuthEvent]
      · rcases o with m | st | _ | ⟨atk, ei⟩
        · simp [preservesScripts, refreshGoogleToken, hrt, hb, hs, popRefresh,
            clearMCPGoogleToken, emitAuthEvent]
        · simp [preservesScripts, refreshGoogleToken, hrt, hb, hs, popRefresh,
            clearMCPGoogleToken, emitAuthEvent]
        · simp [preservesScripts, refreshGoogleToken, hrt, hb, hs, popRefresh,
            clearMCPGoogleToken, emitAuthEvent]
        · rcases atk with _ | t <;>
            simp [preservesScripts, refreshGoogleToken, hrt, hb, hs, popRefresh,
              clearMCPGoogleToken, emitAuthEvent, setMCPGoogleToken]

theorem preservesScripts_refl (w : World) : preservesScripts w w :=
  ⟨rfl, rfl, rfl, rfl, rfl, rfl, rfl, rfl⟩

theorem getMCPAuthHeaders_frame (cfg : MCPConfig) (u : Option String) (w : World) :
    preservesScripts w (getMCPAuthHeaders cfg u w).2 := by
  unfold getMCPAuthHeaders
  split
  · exact preservesScripts_refl w
  · rcases ha : w.accessToken with _ | tok
    · exact preservesScripts_refl w
    · by_cases he : w.tokenExpiry ≤ w.now
      · simp only [if_pos he]
        have hg := refreshGoogleToken_frame cfg w
        rcases h2 : (refreshGoogleToken cfg w).2.accessToken with _ | t2
        · simpa [h2] using hg
        · simp only [h2]
          by_cases h3 : (refreshGoogleToken cfg w).2.now < (refreshGoogleToken cfg w).2.tokenExpiry <;>
            simp [h3, hg]
      · simp only [if_neg he]
        rcases h2 : w.accessToken with _ | t2
        · exact preservesScripts_refl w
        · by_cases h3 : w.now < w.tokenExpiry <;> simp [h3, preservesScripts_refl]

-- =============================================================================
-- Claim C6: 401-triggered refresh-and-retry accounting
-- =============================================================================

theorem popRest_g401 (w : World) (tag : NetCall) :
    (popRest w tag).2.g401Refresh = w.g401Refresh ∧
    (popRest w tag).2.g401Retry = w.g401Retry := by
  rcases hs : w.restScript with _ | ⟨o, tail⟩ <;> simp [popRest, hs]

theorem refreshGoogleToken_pair_g401 (cfg : MCPConfig) {w0 : World} {r : Bool} {w3 : World}
    (h : refreshGoogleToken cfg w0 = (r, w3)) :
    w3.g401Refresh = w0.g401Refresh ∧ w3.g401Retry = w0.g401Retry := by
  have hf := refreshGoogleToken_frame cfg w0
  rw [h] at hf
  exact ⟨hf.2.2.2.2.2.2.1, hf.2.2.2.2.2.2.2⟩

theorem getMCPAuthHeaders_pair_g401 (cfg : MCPConfig) (u : Option String) {w0 : World}
    {hd : List (String × String)} {w1 : World} (h : getMCPAuthHeaders cfg u w0 = (hd, w1)) :
    w1.g401Refresh = w0.g401Refresh ∧ w1.g401Retry = w0.g401Retry := by
  have hf := getMCPAuthHeaders_frame cfg u w0
  rw [h] at hf
  exact ⟨hf.2.2.2.2.2.2.1, hf.2.2.2.2.2.2.2⟩

theorem popRest_pair_g401 {w0 : World} {tag : NetCall} {o : RestOutcome} {w1 : World}
    (h : popRest w0 tag = (o, w1)) :
    w1.g401Refresh = w0.g401Refresh ∧ w1.g401Retry = w0.g401Retry := by
  have hf := popRest_g401 w0 tag
  rw [h] at hf
  exact hf

theorem restCallLoop_g401_le (cfg : MCPConfig) :
    ∀ (urls : List String) (resp : Option RestResp) (w : World),
      (restCallLoop cfg urls resp w).2.g401Refresh ≤ w.g401Refresh + urls.length ∧
      (restCallLoop cfg urls resp w).2.g401Retry ≤ w.g401Retry + urls.length := by
  intro urls
  induction urls with
  | nil => intro resp w; simp [restCallLoop]
  | cons url rest ih =>
    intro resp w
    rw [restCallLoop]
    simp only [List.length_cons]
    have hg1 := popRest_g401 w (NetCall.restPost url)
    split
    next m heq =>
      try dsimp only
      exact ⟨by omega, by omega⟩
    next status body heq =>
      generalize hw1 : (popRest w (NetCall.restPost url)).2 = w1
      rw [hw1] at hg1
      try dsimp only
      split
      next hok =>
        try dsimp only
        exact ⟨by omega, by omega⟩
      next hok =>
        split
        next h401 =>
          split
          next val heq2 =>
            have h3 := refreshGoogleToken_frame cfg { w1 with g401Refresh := w1.g401Refresh + 1 }
            obtain ⟨-, -, -, -, -, -, h3r, h3y⟩ := h3
            try dsimp only at h3r h3y
            split
            next hr =>
              generalize hw3 :
                (refreshGoogleToken cfg { w1 with g401Refresh := w1.g401Refresh + 1 }).2 = w3
              rw [hw3] at h3r h3y
              have h4 := getMCPAuthHeaders_frame cfg none w3
              obtain ⟨-, -, -, -, -, -, h4r, h4y⟩ := h4
              generalize hw4 : (getMCPAuthHeaders cfg none w3).2 = w4
              rw [hw4] at h4r h4y
              have hg6 := popRest_g401 { w4 with g401Retry := w4.g401Retry + 1 }
                (NetCall.restRetry url)
              try dsimp only at hg6
              split
              next m2 heq3 =>
                try dsimp only
                exact ⟨by omega, by omega⟩
              next st2 b2 heq3 =>
                try dsimp only
                split
                next hok2 =>
                  try dsimp only
                  exact ⟨by omega, by omega⟩
                next hok2 =>
                  have h := ih (some { status := st2, body := b2 })
                    (popRest { w4 with g401Retry := w4.g401Retry + 1 } (NetCall.restRetry url)).2
                  exact ⟨by omega, by omega⟩
            next hr =>
              have h := ih (some { status := status, body := body })
                (refreshGoogleToken cfg { w1 with g401Refresh := w1.g401Refresh + 1 }).2
              exact ⟨by omega, by omega⟩
          next heq2 =>
            have hge : (emitAuthEvent (clearMCPGoogleToken w1)
                  AuthEvent.needs_relogin).g401Refresh = w1.g401Refresh ∧
                (emitAuthEvent (clearMCPGoogleToken w1)
                  AuthEvent.needs_relogin).g401Retry = w1.g401Retry := by
              simp [clearMCPGoogleToken, emitAuthEvent]
            have h := ih (some { status := status, body := body })
              (emitAuthEvent (clearMCPGoogleToken w1) AuthEvent.needs_relogin)
            exact ⟨by omega, by omega⟩
        next h401 =>
          have h := ih (some { status := status, body := body }) w1
          exact ⟨by omega, by omega⟩

theorem popMcp_g401 (w : World) (url : String) :
    (popMcp w url).2.g401Refresh = w.g401Refresh ∧
    (popMcp w url).2.g401Retry = w.g401Retry := by
  rcases hs : w.mcpScript with _ | ⟨o, tail⟩ <;> simp [popMcp, hs]

theorem mcpRpc_g401 (cfg : MCPConfig) (url method : String) (note : Bool) (w : World) :
    (mcpRpc cfg url method note w).2.g401Refresh = w.g401Refresh ∧
    (mcpRpc cfg url method note w).2.g401Retry = w.g401Retry := by
  unfold mcpRpc
  split
  next w1 heq1 =>
    obtain ⟨-, -, -, -, -, -, h1r, h1y⟩ := getMCPAuthHeaders_frame cfg (some url) w
    rw [heq1] at h1r h1y
    dsimp only at h1r h1y
    split
    next out w2 heq2 =>
      have h2 := popMcp_g401 w1 url
      rw [heq2] at h2
      dsimp only at h2
      rcases out with m | ⟨status, sid, body⟩
      · try dsimp only
        exact ⟨by omega, by omega⟩
      · rcases sid with _ | sd <;> cases note <;> try dsimp only
        all_goals repeat' split
        all_goals try dsimp only
        all_goals exact ⟨by omega, by omega⟩

theorem mcpInitialize_g401 (cfg : MCPConfig) (url : String) (w : World) :
    (mcpInitialize cfg url w).2.g401Refresh = w.g401Refresh ∧
    (mcpInitialize cfg url w).2.g401Retry = w.g401Retry := by
  unfold mcpInitialize
  split
  next e w1 heq1 =>
    have h1 := mcpRpc_g401 cfg url "initialize" false w
    rw [heq1] at h1
    dsimp only at h1
    try dsimp only
    exact ⟨by omega, by omega⟩
  next r w1 heq1 =>
    have h1 := mcpRpc_g401 cfg url "initialize" false w
    rw [heq1] at h1
    dsimp only at h1
    split
    next e w2 heq2 =>
      have h2 := mcpRpc_g401 cfg url "notifications/initialized" true w1
      rw [heq2] at h2
      dsimp only at h2
      try dsimp only
      exact ⟨by omega, by omega⟩
    next r2 w2 heq2 =>
      have h2 := mcpRpc_g401 cfg url "notifications/initialized" true w1
      rw [heq2] at h2
      dsimp only at h2
      try dsimp only
      exact ⟨by omega, by omega⟩

theorem mcpCallTool_g401 (cfg : MCPConfig) (url toolName : String)
    (args : List (String × String)) (w : World) :
    (mcpCallTool cfg url toolName args w).2.g401Refresh = w.g401Refresh ∧
    (mcpCallTool cfg url toolName args w).2.g401Retry = w.g401Retry := by
  unfold mcpCallTool
  split
  next s heq0 =>
    try dsimp only
    split
    next e w1 heq1 =>
      have h1 := mcpRpc_g401 cfg url "tools/call" false w
      rw [heq1] at h1
      dsimp only at h1
      try dsimp only
      exact ⟨by omega, by omega⟩
    next r w1 heq1 =>
      have h1 := mcpRpc_g401 cfg url "tools/call" false w
      rw [heq1] at h1
      dsimp only at h1
      repeat' split
      all_goals try dsimp only
      all_goals exact ⟨by omega, by omega⟩
  next heq0 =>
    try dsimp only
    split
    next e w1 heq1 =>
      have h1 := mcpInitialize_g401 cfg url w
      rw [heq1] at h1
      dsimp only at h1
      try dsimp only
      exact ⟨by omega, by omega⟩
    next r w1 heq1 =>
      have h1 := mcpInitialize_g401 cfg url w
      rw [heq1] at h1
      dsimp only at h1
      split
      next e w2 heq2 =>
        have h2 := mcpRpc_g401 cfg url "tools/call" false w1
        rw [heq2] at h2
        dsimp only at h2
        try dsimp only
        exact ⟨by omega, by omega⟩
      next r2 w2 heq2 =>
        have h2 := mcpRpc_g401 cfg url "tools/call" false w1
        rw [heq2] at h2
        dsimp only at h2
        repeat' split
        all_goals try dsimp only
        all_goals exact ⟨by omega, by omega⟩

/-- C6 (amended): in the stateless REST path of `callMCPTool`, a 401 on a given
conventional call path triggers at most one refresh-and-retry for that path;
since two call paths are tried, a single tool invocation performs at most TWO
401-triggered credential refreshes and at most TWO retried POSTs — one per call
path — not at most one overall.  (The ghost counters count exactly the refresh
calls and retried POSTs of the 401 branch.) -/
theorem callMCPTool_401_bound (cfg : MCPConfig) (toolName : String)
    (args : List (String × String)) (w : World) :
    (callMCPTool cfg toolName args w).2.g401Refresh ≤ w.g401Refresh + 2 ∧
    (callMCPTool cfg toolName args w).2.g401Retry ≤ w.g401Retry + 2 := by
  have h5 : ∀ (a b : String) (r : Option RestResp) (w0 : World),
      (restCallLoop cfg [a, b] r w0).2.g401Refresh ≤ w0.g401Refresh + 2 ∧
      (restCallLoop cfg [a, b] r w0).2.g401Retry ≤ w0.g401Retry + 2 := by
    intro a b r w0
    have h := restCallLoop_g401_le cfg [a, b] r w0
    simpa using h
  have hb : (callMCPToolBody cfg toolName args w).2.g401Refresh ≤ w.g401Refresh + 2 ∧
      (callMCPToolBody cfg toolName args w).2.g401Retry ≤ w.g401Retry + 2 := by
    unfold callMCPToolBody
    try dsimp only
    split
    next h =>
      try dsimp only
      exact ⟨by omega, by omega⟩
    next h =>
      split
      next h2 =>
        try dsimp only
        exact ⟨by omega, by omega⟩
      next h2 =>
        split
        next h3 =>
          have h := mcpCallTool_g401 cfg
            (resolveToolBaseUrl cfg w (normalizeToolName toolName))
            (normalizeToolName toolName) args w
          try dsimp only
          exact ⟨by omega, by omega⟩
        next h3 =>
          try dsimp only
          obtain ⟨-, -, -, -, -, -, hgr, hgy⟩ := getMCPAuthHeaders_frame cfg
            (some (resolveToolBaseUrl cfg w (normalizeToolName toolName))) w
          split
          next e w2 heq2 =>
            have h7r := congrArg (fun p => (Prod.snd p).g401Refresh) heq2
            have h7y := congrArg (fun p => (Prod.snd p).g401Retry) heq2
            dsimp only at h7r h7y
            constructor
            · rw [← h7r]
              refine le_trans (restCallLoop_g401_le cfg _ _ _).1 ?_
              simp only [List.length_cons, List.length_nil]
              omega
            · rw [← h7y]
              refine le_trans (restCallLoop_g401_le cfg _ _ _).2 ?_
              simp only [List.length_cons, List.length_nil]
              omega
          next resp w2 heq2 =>
            have h7r := congrArg (fun p => (Prod.snd p).g401Refresh) heq2
            have h7y := congrArg (fun p => (Prod.snd p).g401Retry) heq2
            dsimp only at h7r h7y
            constructor
            · rw [← h7r]
              refine le_trans (restCallLoop_g401_le cfg _ _ _).1 ?_
              simp only [List.length_cons, List.length_nil]
              omega
            · rw [← h7y]
              refine le_trans (restCallLoop_g401_le cfg _ _ _).2 ?_
              simp only [List.length_cons, List.length_nil]
              omega
  unfold callMCPTool
  split
  next r w1 heq1 =>
    rw [heq1] at hb
    dsimp only at hb
    exact hb
  next e w1 heq1 =>
    rw [heq1] at hb
    dsimp only at hb
    exact hb

/-- Configuration for the C6 counterexample. -/
def cfg6W : MCPConfig := { googleUrl := "https://g.example/mcp" }

/-- World for the C6 counterexample: a valid cached token, a refresh token, and
a backend whose every POST — initial and retried, on both conventional call
paths — answers 401 while the refresh endpoint keeps succeeding. -/
def w6W : World :=
  { now := 1000, accessToken := some "tok0", refreshToken := some "rt",
    tokenExpiry := 2000,
    toolToServer := [("mytool", "https://g.example/mcp")],
    restScript := [RestOutcome.resp 401 (RestBody.json none none),
      RestOutcome.resp 401 (RestBody.json none none),
      RestOutcome.resp 401 (RestBody.json none none),
      RestOutcome.resp 401 (RestBody.json none none)],
    refreshScript := [RefreshOutcome.ok (some "tok1") (some 3600),
      RefreshOutcome.ok (some "tok2") (some 3600)] }

/-- C6 counterexample: in one `callMCPTool` invocation the code performs TWO
401-triggered credential refreshes and TWO retried POSTs (one per conventional
call path), refuting "at most one credential refresh and at most one retried
POST ... across all conventional call paths tried".  The network log confirms
two POSTs to the refresh endpoint. -/
theorem callMCPTool_two_401_refreshes :
    (callMCPTool cfg6W "mytool" [] w6W).2.g401Refresh = 2 ∧
    (callMCPTool cfg6W "mytool" [] w6W).2.g401Retry = 2 ∧
    (callMCPTool cfg6W "mytool" [] w6W).2.netLog.count NetCall.refreshPost = 2 ∧
    (callMCPTool cfg6W "mytool" [] w6W).1.isError = true := by
  refine ⟨by decide, by decide, by decide, by decide⟩

-- =============================================================================
-- Claim C3: `callMCPTool` always returns, tagging every failure
-- =============================================================================

set_option maxHeartbeats 2000000 in
/-- C3: `callMCPTool` is a total function — it never throws to its caller (the
embedding of its `catch` converts every thrown exception, `Except.error`, into
a returned result) — and on every client-side failure mode the returned result
has `isError` set and carries a human-readable text content item: (1) any
exception thrown inside the body, which covers transport errors and JSON-RPC
protocol errors of the stateful path; (2) no configured server for the tool;
(3) a transport error on the stateless POST; (4) a non-2xx response with an
unparseable body on every conventional call path; (5) a remote `error` field in
the response body; (6) a JSON-RPC error envelope on the stateful path. -/
theorem callMCPTool_total_error_handling (cfg : MCPConfig) (toolName : String)
    (args : List (String × String)) (w : World) :
    (∀ e w', callMCPToolBody cfg toolName args w = (Except.error e, w') →
      callMCPTool cfg toolName args w =
        (errorResult ("Error calling " ++ toolName ++ ": " ++ e), w') ∧
      (callMCPTool cfg toolName args w).1.isError = true ∧
      (callMCPTool cfg toolName args w).1.hasTextItem = true)
    ∧ (resolveToolBaseUrl cfg w (normalizeToolName toolName) = "" →
      (callMCPTool cfg toolName args w).1.isError = true ∧
      (callMCPTool cfg toolName args w).1.hasTextItem = true)
    ∧ (∀ m tail,
      resolveToolBaseUrl cfg w (normalizeToolName toolName) ≠ "" →
      localhostGuard (resolveToolBaseUrl cfg w (normalizeToolName toolName)) = false →
      (mapGet w.serverProtocol (resolveToolBaseUrl cfg w (normalizeToolName toolName))
        == some "mcp") = false →
      w.restScript = RestOutcome.netError m :: tail →
      (callMCPTool cfg toolName args w).1.isError = true ∧
      (callMCPTool cfg toolName args w).1.hasTextItem = true)
    ∧ (∀ tail,
      resolveToolBaseUrl cfg w (normalizeToolName toolName) ≠ "" →
      localhostGuard (resolveToolBaseUrl cfg w (normalizeToolName toolName)) = false →
      (mapGet w.serverProtocol (resolveToolBaseUrl cfg w (normalizeToolName toolName))
        == some "mcp") = false →
      w.restScript = RestOutcome.resp 500 RestBody.invalid ::
        RestOutcome.resp 500 RestBody.invalid :: tail →
      (callMCPTool cfg toolName args w).1.isError = true ∧
      (callMCPTool cfg toolName args w).1.hasTextItem = true)
    ∧ (∀ emsg r tail,
      resolveToolBaseUrl cfg w (normalizeToolName toolName) ≠ "" →
      localhostGuard (resolveToolBaseUrl cfg w (normalizeToolName toolName)) = false →
      (mapGet w.serverProtocol (resolveToolBaseUrl cfg w (normalizeToolName toolName))
        == some "mcp") = false →
      w.restScript = RestOutcome.resp 200 (RestBody.json (some emsg) r) :: tail →
      (callMCPTool cfg toolName args w).1.isError = true ∧
      (callMCPTool cfg toolName args w).1.hasTextItem = true)
    ∧ (∀ sid emsg tailM,
      resolveToolBaseUrl cfg w (normalizeToolName toolName) ≠ "" →
      localhostGuard (resolveToolBaseUrl cfg w (normalizeToolName toolName)) = false →
      (mapGet w.serverProtocol (resolveToolBaseUrl cfg w (normalizeToolName toolName))
        == some "mcp") = true →
      mapGet w.sessions (resolveToolBaseUrl cfg w (normalizeToolName toolName)) = some sid →
      w.mcpScript = McpOutcome.resp 200 none
        (McpBody.plainJson (some { error := some emsg, result := none })) :: tailM →
      (callMCPTool cfg toolName args w).1.isError = true ∧
      (callMCPTool cfg toolName args w).1.hasTextItem = true) := by
  obtain ⟨hfrs, hfms, -, -, -, -, -, -⟩ := getMCPAuthHeaders_frame cfg
    (some (resolveToolBaseUrl cfg w (normalizeToolName toolName))) w
  refine ⟨?_, ?_, ?_, ?_, ?_, ?_⟩
  · intro e w' h
    unfold callMCPTool
    rw [h]
    exact ⟨rfl, rfl, rfl⟩
  · intro h
    unfold callMCPTool callMCPToolBody
    try dsimp only
    rw [if_pos h]
    exact ⟨rfl, rfl⟩
  · intro m tail hne hloc hproto hscript
    unfold callMCPTool callMCPToolBody
    try dsimp only
    rw [if_neg hne]
    simp only [hloc, Bool.false_eq_true, if_false, hproto]
    try dsimp only
    rw [restCallLoop]
    simp only [popRest]
    try dsimp only
    rw [hfrs, hscript]
    exact ⟨rfl, rfl⟩
  · intro tail hne hloc hproto hscript
    unfold callMCPTool callMCPToolBody
    try dsimp only
    rw [if_neg hne]
    simp only [hloc, Bool.false_eq_true, if_false, hproto]
    try dsimp only
    rw [restCallLoop]
    simp only [popRest]
    try dsimp only
    rw [hfrs, hscript]
    try dsimp only
    rw [restCallLoop]
    simp only [popRest]
    try dsimp only
    exact ⟨rfl, rfl⟩
  · intro emsg r tail hne hloc hproto hscript
    unfold callMCPTool callMCPToolBody
    try dsimp only
    rw [if_neg hne]
    simp only [hloc, Bool.false_eq_true, if_false, hproto]
    try dsimp only
    rw [restCallLoop]
    simp only [popRest]
    try dsimp only
    rw [hfrs, hscript]
    exact ⟨rfl, rfl⟩
  · intro sid emsg tailM hne hloc hproto hsess hscript
    unfold callMCPTool callMCPToolBody
    try dsimp only
    rw [if_neg hne]
    simp only [hloc, Bool.false_eq_true, if_false, hproto, if_true]
    unfold mcpCallTool
    rw [hsess]
    try dsimp only
    unfold mcpRpc
    try dsimp only
    simp only [popMcp]
    try dsimp only
    rw [hfms, hscript]
    exact ⟨rfl, rfl⟩

/-- Configuration for the C3 witness worlds. -/
def cfg3W : MCPConfig := { googleUrl := "https://g.example/mcp" }

/-- C3 witness world: transport error on the stateless POST. -/
def w3tW : World :=
  { toolToServer := [("t", "https://g.example/mcp")],
    restScript := [RestOutcome.netError "boom"] }

/-- C3 witness world: 500 with unparseable bodies on both call paths. -/
def w3jW : World :=
  { toolToServer := [("t", "https://g.example/mcp")],
    restScript := [RestOutcome.resp 500 RestBody.invalid,
      RestOutcome.resp 500 RestBody.invalid] }

/-- C3 witness world: remote `error` field in a 200 response. -/
def w3eW : World :=
  { toolToServer := [("t", "https://g.example/mcp")],
    restScript := [RestOutcome.resp 200 (RestBody.json (some "remote boom") none)] }

/-- C3 witness world: JSON-RPC error envelope on the stateful path. -/
def w3mW : World :=
  { toolToServer := [("t", "https://g.example/mcp")],
    serverProtocol := [("https://g.example/mcp", "mcp")],
    sessions := [("https://g.example/mcp", "sid")],
    mcpScript := [McpOutcome.resp 200 none
      (McpBody.plainJson (some { error := some "rpc boom", result := none }))] }

theorem callMCPTool_total_error_handling_witness :
    ((callMCPTool cfg3W "t" [] w3tW).1.isError = true ∧
      callMCPTool cfg3W "t" [] w3tW =
        (errorResult ("Error calling " ++ "t" ++ ": " ++ "boom"),
          (callMCPToolBody cfg3W "t" [] w3tW).2)) ∧
    (callMCPTool ({} : MCPConfig) "t" [] ({} : World)).1.isError = true ∧
    (callMCPTool cfg3W "t" [] w3jW).1.isError = true ∧
    (callMCPTool cfg3W "t" [] w3eW).1.isError = true ∧
    (callMCPTool cfg3W "t" [] w3mW).1.isError = true ∧
    (callMCPTool cfg3W "t" [] w3mW).1.hasTextItem = true := by
  have hbody : callMCPToolBody cfg3W "t" [] w3tW =
      (Except.error "boom", (callMCPToolBody cfg3W "t" [] w3tW).2) := by
    have : callMCPToolBody cfg3W "t" [] w3tW =
        ((callMCPToolBody cfg3W "t" [] w3tW).1, (callMCPToolBody cfg3W "t" [] w3tW).2) := rfl
    rw [this]
    have h1 : (callMCPToolBody cfg3W "t" [] w3tW).1 = Except.error "boom" := rfl
    rw [h1]
  refine ⟨⟨?_, ?_⟩, ?_, ?_, ?_, ?_, ?_⟩
  · exact ((callMCPTool_total_error_handling cfg3W "t" [] w3tW).1 "boom" _ hbody).2.1
  · exact ((callMCPTool_total_error_handling cfg3W "t" [] w3tW).1 "boom" _ hbody).1
  · exact ((callMCPTool_total_error_handling {} "t" [] {}).2.1 (by decide)).1
  · exact ((callMCPTool_total_error_handling cfg3W "t" [] w3jW).2.2.2.1 []
      (by decide) (by decide) (by decide) rfl).1
  · exact ((callMCPTool_total_error_handling cfg3W "t" [] w3eW).2.2.2.2.1 "remote boom" none []
      (by decide) (by decide) (by decide) rfl).1
  · exact ((callMCPTool_total_error_handling cfg3W "t" [] w3mW).2.2.2.2.2 "sid" "rpc boom" []
      (by decide) (by decide) (by decide) (by decide) rfl).1
  · exact ((callMCPTool_total_error_handling cfg3W "t" [] w3mW).2.2.2.2.2 "sid" "rpc boom" []
      (by decide) (by decide) (by decide) (by decide) rfl).2
